import Mathlib

/-!
A shallow embedding of `src/ComboInjector.py` (class `ComboInjector`, environment
`'sfiii'`, mode `'multi_discrete'`).

Conventions of the embedding:
* The numpy random source is modelled as an explicit state `Rng`: a stream of
  naturals consumed by `np.random.choice` / `np.random.randint` (a draw for a
  uniform pick among `k` alternatives is taken modulo `k`, so every stream value
  denotes a legal draw) and a stream of rationals consumed by `np.random.rand()`
  (Python floats are modelled as `ℚ`).
* `np.random.randint(lo, hi)` raises `ValueError` when `lo >= hi`; fallible
  operations therefore return `Option`, with `none` standing for a raised
  Python exception (also used for `KeyError` / `IndexError` / unpack errors).
* Python `str.split(sep)` for a one-character separator is modelled by
  `splitParts` below (structural recursion on the character list, keeping
  empty chunks exactly like Python does).
-/

/-- Explicit random source: `nats` feeds `np.random.choice`/`np.random.randint`,
`rats` feeds `np.random.rand()`. -/
structure Rng where
  nats : List Nat
  rats : List ℚ
  deriving DecidableEq, Repr

/-- Pull one natural from the integer stream (default 0 when exhausted). -/
def drawNat (r : Rng) : Nat × Rng :=
  (r.nats.headI, ⟨r.nats.tail, r.rats⟩)

/-- Pull one rational from the float stream: models `np.random.rand()`. -/
def npRand (r : Rng) : ℚ × Rng :=
  (r.rats.headI, ⟨r.nats, r.rats.tail⟩)

/-- `np.random.choice(xs)` on a (non-empty at every call site) list of strings:
the drawn natural modulo the length indexes into the list. -/
def npChoice (xs : List String) (r : Rng) : String × Rng :=
  (xs.getD ((drawNat r).1 % xs.length) "", (drawNat r).2)

/-- `np.random.randint(lo, hi)`: uniform in `[lo, hi)`, raising (`none`) when
`lo >= hi`, exactly as numpy does. -/
def npRandint (lo hi : Nat) (r : Rng) : Option (Nat × Rng) :=
  if lo < hi then some (lo + (drawNat r).1 % (hi - lo), (drawNat r).2)
  else none

/-- Python `str.split(c)` on the underlying character list: splits at every
occurrence of `c`, keeping empty chunks (so `"rep_p_0_8_"` has a trailing `""`
part, as in Python). -/
def splitOnChar (c : Char) : List Char → List (List Char)
  | [] => [[]]
  | x :: xs =>
    let rest := splitOnChar c xs
    if x = c then [] :: rest
    else
      match rest with
      | [] => [[x]]
      | h :: t => (x :: h) :: t

/-- Python `s.split(c)` producing `String` chunks. -/
def splitParts (c : Char) (s : String) : List String :=
  (splitOnChar c s.toList).map fun l => String.mk l

/-- `int(s)` restricted to the decimal-digit strings that occur in the move
data; `none` models the `ValueError` raised on a non-numeric string. -/
def parseNat (s : String) : Option Nat :=
  go s.toList 0 (s.toList ≠ [])
where
  go : List Char → Nat → Bool → Option Nat
    | [], acc, ok => if ok then some acc else none
    | c :: cs, acc, ok =>
      if c.isDigit then go cs (acc * 10 + (c.toNat - 48)) ok
      else none

/-- `base_movement_names` (`ComboInjector.__init__`): direction key paired with
the first component of its multi-discrete array, in insertion order. -/
def baseMovementNames : List (String × Nat) :=
  [("", 0), ("l", 1), ("ul", 2), ("u", 3), ("ur", 4),
   ("r", 5), ("dr", 6), ("d", 7), ("dl", 8)]

/-- `base_attack_names`: attack key paired with the second component of its
multi-discrete array, in insertion order. -/
def baseAttackNames : List (String × Nat) :=
  [("", 0), ("lp", 1), ("mp", 2), ("hp", 3), ("lk", 4),
   ("mk", 5), ("hk", 6), ("lpk", 7), ("mpk", 8), ("hpk", 9)]

/-- `self._base_actions`: the flattened `f'{move}+{attack}'` strings, movement
outer loop, attack inner loop. -/
def baseActions : List String :=
  (baseMovementNames.map Prod.fst).flatMap fun m =>
    (baseAttackNames.map Prod.fst).map fun a => m ++ "+" ++ a

/-- Position of the first occurrence of `s` in `l` (the keys of
`self.action_idx_lookup` are pairwise distinct, so first-occurrence lookup
coincides with the Python dict built by enumeration). -/
def lookupIdx : List String → String → Option Nat
  | [], _ => none
  | x :: xs, s => if x = s then some 0 else (lookupIdx xs s).map (· + 1)

/-- `self.action_idx_lookup`: combo string → action index. -/
def actionIdxLookup (s : String) : Option Nat :=
  lookupIdx baseActions s

/-- Lookup of the numeric code for a movement/attack key. -/
def lookupCode (tbl : List (String × Nat)) (k : String) : Option Nat :=
  (tbl.find? fun p => p.1 == k).map Prod.snd

/-- `self.input_lookup[idx]`: split the combo string of index `idx` at `'+'`
and add the two multi-discrete arrays, giving the `(movement, attack)` pair
(`none` models the `KeyError` on an index outside the table). -/
def inputLookup (idx : Nat) : Option (Nat × Nat) :=
  (baseActions.get? idx).bind fun s =>
    match splitParts '+' s with
    | [m, a] =>
      (lookupCode baseMovementNames m).bind fun mc =>
        (lookupCode baseAttackNames a).map fun ac => (mc, ac)
    | _ => none

/-- `ComboInjector.action_space_size`. -/
def action_space_size : Nat := baseActions.length

/-- `self.move_pattern_names`. -/
def movePatternNames : List (String × List String) :=
  [("rqc", ["d", "dr", "r"]),
   ("lqc", ["d", "dl", "l"]),
   ("rhc", ["l", "dl", "d", "dr", "r"]),
   ("lhc", ["r", "dr", "d", "dl", "l"]),
   ("rdp", ["r", "d", "dr"]),
   ("ldp", ["l", "d", "dl"]),
   ("rfc", ["r", "dr", "d", "dl", "l", "ul", "u", "ur"]),
   ("lfc", ["l", "dl", "d", "dr", "r", "ur", "u", "ul"]),
   ("sr", ["r", "", "r"]),
   ("sl", ["l", "", "l"]),
   ("sur", ["d", "ur"]),
   ("su", ["d", "u"]),
   ("sul", ["d", "ul"])]

/-- `self.move_pattern_names[k]` (every call site uses a key that is present,
so the default `[]` branch is dead). -/
def patternOf (k : String) : List String :=
  ((movePatternNames.find? fun p => p.1 == k).map Prod.snd).getD []

/-- The movement-sequence part of `ComboInjector._combine_actions` (the big
`if/elif` chain parsing `move_string`). -/
def combMoveSeq (moveString : String) (r : Rng) : List String × Rng :=
  if moveString = "qc" then
    let c := npChoice ["rqc", "lqc"] r; (patternOf c.1, c.2)
  else if moveString = "2qc" then
    let c := npChoice ["rqc", "lqc"] r; (patternOf c.1 ++ patternOf c.1, c.2)
  else if moveString = "hc" then
    let c := npChoice ["rhc", "lhc"] r; (patternOf c.1, c.2)
  else if moveString = "fc" then
    let c := npChoice ["rfc", "lfc"] r; (patternOf c.1, c.2)
  else if moveString = "2fc" then
    let c := npChoice ["rfc", "lfc"] r; (patternOf c.1 ++ patternOf c.1, c.2)
  else if moveString = "dp" then
    let c := npChoice ["rdp", "ldp"] r; (patternOf c.1, c.2)
  else if moveString = "2dp" then
    let c := npChoice ["rdp", "ldp"] r; (patternOf c.1 ++ patternOf c.1, c.2)
  else if moveString = "lr" then
    let c := npChoice ["l", "r"] r; ([c.1], c.2)
  else ([moveString], r)

/-- The attack-resolution step shared by `_combine_actions`, `_hold_direction`
and `_repeat_attack` (`'p'`/`'k'` expand to a uniformly chosen strength,
anything else passes through literally). -/
def resolveAttack (attackString : String) (r : Rng) : String × Rng :=
  if attackString = "p" then npChoice ["lp", "mp", "hp"] r
  else if attackString = "k" then npChoice ["lk", "mk", "hk"] r
  else (attackString, r)

/-- `ComboInjector._combine_actions`: resolve the movement pattern and the
attack, then attach the attack to the last step only. -/
def _combine_actions (moveString attackString : String) (r : Rng) :
    List String × Rng :=
  let mR := combMoveSeq moveString r
  let aR := resolveAttack attackString mR.2
  let aSeq := List.replicate (mR.1.length - 1) "" ++ [aR.1]
  ((mR.1.zip aSeq).map fun p => p.1 ++ "+" ++ p.2, aR.2)

/-- `ComboInjector._hold_direction`: parse the frame bounds, resolve the
release attack, draw `num_steps = randint(min_f // frame_skip,
(max_f + 1) // frame_skip)` and build the held/released token list.
`none` models the `ValueError` of `int(...)` on a non-numeric bound or of
`np.random.randint` on an empty range. -/
def _hold_direction (direction minFrame maxFrame : String) (release : String)
    (frameSkip : Nat) (r : Rng) : Option (List String × Rng) :=
  match parseNat minFrame, parseNat maxFrame with
  | some minF, some maxF =>
    let relR := resolveAttack release r
    let rel := relR.1
    match npRandint (minF / frameSkip) ((maxF + 1) / frameSkip) relR.2 with
    | none => none
    | some nr =>
      let numSteps := nr.1
      if direction = "d" then
        let dR := npChoice ["d", "dl", "dr"] nr.2
        let mSeq := List.replicate numSteps dR.1 ++
          (if rel = "" then [] else ["u"])
        let aSeq := List.replicate (mSeq.length - (if rel = "" then 0 else 1)) ""
          ++ (if rel = "" then [] else [rel])
        some ((mSeq.zip aSeq).map fun p => p.1 ++ "+" ++ p.2, dR.2)
      else if direction = "lr" then
        let dR := npChoice ["l", "dl", "dr", "r"] nr.2
        let mSeq := List.replicate numSteps dR.1 ++
          (if rel = "" then []
           else [if dR.1.endsWith "r" then "l" else "r"])
        let aSeq := List.replicate (mSeq.length - (if rel = "" then 0 else 1)) ""
          ++ (if rel = "" then [] else [rel])
        some ((mSeq.zip aSeq).map fun p => p.1 ++ "+" ++ p.2, dR.2)
      else
        some ([direction ++ "+"], nr.2)
  | _, _ => none

/-- `ComboInjector._repeat_attack`: expand the attack class once, draw
`reps = randint(min_r, max_r + 1)` and emit `reps` copies of the attack step,
each followed by one `'+'` filler when `tap` is non-empty (Python's
`seq * reps`). -/
def _repeat_attack (attackString minRepeats maxRepeats tap : String)
    (r : Rng) : Option (List String × Rng) :=
  match parseNat minRepeats, parseNat maxRepeats with
  | some minR, some maxR =>
    let aR := resolveAttack attackString r
    match npRandint minR (maxR + 1) aR.2 with
    | none => none
    | some nr =>
      some ((List.replicate nr.1
        (("+" ++ aR.1) :: (if tap = "" then [] else ["+"]))).flatten, nr.2)
  | _, _ => none

/-- One `'_'`-split segment of `ComboInjector._decode_action_string`.
A head other than `comb`/`hold`/`rep`/`raw` contributes nothing (the Python
loop has no `else` branch); a `hold`/`rep` segment whose tail does not unpack
into exactly four pieces raises (`none`), and a `comb` segment needs at least
`parts[1]` and `parts[2]` (extra pieces are ignored, as in Python). -/
def decodeParts (frameSkip : Nat) (parts : List String) (r : Rng) :
    Option (List String × Rng) :=
  match parts with
  | "comb" :: moveStr :: attackStr :: _ =>
    some (_combine_actions moveStr attackStr r)
  | "comb" :: _ => none
  | "hold" :: [direction, minF, maxF, rel] =>
    _hold_direction direction minF maxF rel frameSkip r
  | "hold" :: _ => none
  | "rep" :: [atk, minR, maxR, tap] =>
    _repeat_attack atk minR maxR tap r
  | "rep" :: _ => none
  | "raw" :: rest => some (rest, r)
  | _ => some ([], r)

/-- One `'/'`-separated sub-part of the descriptor. -/
def decodeSegment (frameSkip : Nat) (sub : String) (r : Rng) :
    Option (List String × Rng) :=
  decodeParts frameSkip (splitParts '_' sub) r

/-- The left-to-right accumulation `action_sequence += ...` over segments. -/
def decodeSegments (frameSkip : Nat) :
    List String → Rng → Option (List String × Rng)
  | [], r => some ([], r)
  | seg :: rest, r =>
    match decodeSegment frameSkip seg r with
    | none => none
    | some p =>
      match decodeSegments frameSkip rest p.2 with
      | none => none
      | some q => some (p.1 ++ q.1, q.2)

/-- `ComboInjector._decode_action_string`. -/
def _decode_action_string (frameSkip : Nat) (actionString : String) (r : Rng) :
    Option (List String × Rng) :=
  decodeSegments frameSkip (splitParts '/' actionString) r

/-- A move definition: either a single `combo_str` or the three
`combo_str_1`/`combo_str_2`/`combo_str_3` variants of a `super_art` entry. -/
inductive ComboSpec where
  | single (s : String)
  | variants (s1 s2 s3 : String)
  deriving DecidableEq, Repr

/-- One entry of a character's move dictionary: sampling weight plus spec. -/
structure MoveEntry where
  prob : ℚ
  combo : ComboSpec
  deriving DecidableEq, Repr

/-- `self.characters['sfiii']`: every character's move dictionary, in
insertion order. -/
def charactersSfiii : List (String × List (String × MoveEntry)) :=
  [("Alex",
    [("power_bomb", ⟨0.15, .single "comb_hc_p"⟩),
     ("spiral_ddt", ⟨0.15, .single "comb_hc_k"⟩),
     ("flash_chop", ⟨0.15, .single "comb_qc_p"⟩),
     ("air_knee_smash", ⟨0.15, .single "comb_dp_k"⟩),
     ("air_stampede", ⟨0.15, .single "hold_d_16_64_k"⟩),
     ("slash_elbow", ⟨0.15, .single "hold_lr_16_64_k"⟩),
     ("super_art", ⟨0.1, .variants "comb_fc_mp" "comb_2qc_mp" "comb_2qc_mp"⟩)]),
   ("Twelve",
    [("ndl", ⟨0.3, .single "comb_qc_p"⟩),
     ("axe", ⟨0.3, .single "comb_qc_p/rep_p_3_12_t"⟩),
     ("dra", ⟨0.3, .single "comb_qc_k"⟩),
     ("super_art", ⟨0.1, .variants "comb_2qc_mp" "comb_2qc_mk" "comb_2qc_mp"⟩)]),
   ("Hugo",
    [("shootdown_backbreaker", ⟨0.15, .single "comb_dp_k"⟩),
     ("ultra_throw", ⟨0.15, .single "comb_hc_k"⟩),
     ("moonsault_press", ⟨0.15, .single "comb_fc_p"⟩),
     ("meat_squasher", ⟨0.15, .single "comb_fc_k"⟩),
     ("giant_palm_bomber", ⟨0.15, .single "comb_qc_p"⟩),
     ("monster_lariat", ⟨0.15, .single "comb_qc_k"⟩),
     ("super_art",
      ⟨0.1, .variants "comb_2fc_mp" "comb_2qc_mk" "comb_2qc_mp/rep_mp_0_8_"⟩)]),
   ("Sean",
    [("zenten", ⟨0.18, .single "comb_qc_p"⟩),
     ("sean_tackle", ⟨0.18, .single "comb_hc_p/rep_p_0_8_"⟩),
     ("dragon_smash", ⟨0.18, .single "comb_dp_p"⟩),
     ("tornado_ryuubi_kyaku", ⟨0.36, .single "comb_qc_k"⟩),
     ("super_art",
      ⟨0.1, .variants "comb_2qc_mp" "comb_2qc_mp/rep_mp_0_12_t" "comb_2qc_mp"⟩)]),
   ("Makoto",
    [("karakusa", ⟨0.18, .single "comb_hc_k"⟩),
     ("hayate_oroshi", ⟨0.36, .single "comb_qc_p/rep_p_0_8_"⟩),
     ("fukiage", ⟨0.18, .single "comb_dp_p"⟩),
     ("tsurugi", ⟨0.18, .single "comb_qc_k"⟩),
     ("super_art", ⟨0.1, .variants "comb_2qc_mp" "comb_2qc_mk" "comb_2qc_mp"⟩)]),
   ("Elena",
    [("rhino_horn", ⟨0.18, .single "comb_hc_k"⟩),
     ("mallet_smash", ⟨0.18, .single "comb_hc_p"⟩),
     ("spin_scythe", ⟨0.18, .single "comb_qc_k"⟩),
     ("scratch_wheel_lynx_tail", ⟨0.36, .single "comb_dp_k"⟩),
     ("super_art", ⟨0.1, .variants "comb_2qc_mk" "comb_2qc_mk" "comb_2qc_mp"⟩)]),
   ("Ibuki",
    [("raida", ⟨0.18, .single "comb_hc_p"⟩),
     ("kasumi_gake_tsumuji", ⟨0.18, .single "comb_qc_k"⟩),
     ("tsuji_goe", ⟨0.18, .single "comb_dp_p"⟩),
     ("kunai_kubi_ori", ⟨0.18, .single "comb_qc_p"⟩),
     ("kazekiri_hien", ⟨0.18, .single "comb_dp_k"⟩),
     ("super_art",
      ⟨0.1, .variants "comb_2qc_mp/rep_mp_0_16_t" "comb_2qc_mp" "comb_2qc_mp"⟩)]),
   ("Chun-Li",
    [("kikoken", ⟨0.18, .single "comb_hc_p"⟩),
     ("hazanshu", ⟨0.18, .single "comb_hc_k"⟩),
     ("spinning_bird_kick", ⟨0.18, .single "hold_d_16_64_k"⟩),
     ("hyakuretsu_kyaku", ⟨0.18, .single "rep_k_3_16_t"⟩),
     ("super_art", ⟨0.1, .variants "comb_2qc_mp" "comb_2qc_mk" "comb_2qc_mk"⟩)]),
   ("Dudley",
    [("ducking_straight_short_swing_blow",
      ⟨0.3, .single "comb_hc_k/rep_p_0_4_t"⟩),
     ("ducking_upper_short_swing_blow",
      ⟨0.3, .single "comb_hc_k/rep_k_0_4_t"⟩),
     ("machine_gun_blow_cross_counter", ⟨0.3, .single "comb_hc_p"⟩),
     ("jet_upper", ⟨0.18, .single "comb_dp_p"⟩),
     ("super_art",
      ⟨0.1, .variants "comb_2qc_mp" "comb_2qc_mp/rep_mp_3_12_t" "comb_2qc_mp"⟩)]),
   ("Necro",
    [("snake_fang_rising_cobra", ⟨0.18, .single "comb_hc_k"⟩),
     ("denji_blast", ⟨0.18, .single "comb_dp_p/rep_p_0_12_t"⟩),
     ("flying_viper", ⟨0.18, .single "comb_qc_p"⟩),
     ("rising_kobra", ⟨0.18, .single "comb_qc_k"⟩),
     ("tornado_hook", ⟨0.18, .single "comb_hc_p"⟩),
     ("super_art",
      ⟨0.1, .variants "comb_2qc_mp/rep_mp_0_16_t" "comb_2qc_mp" "comb_2qc_mp"⟩)]),
   ("Q",
    [("capture_deadly_blow", ⟨0.225, .single "comb_hc_k"⟩),
     ("dashing_head", ⟨0.225, .single "hold_lr_16_64_p/rep_p_0_8_"⟩),
     ("dashing_leg", ⟨0.225, .single "hold_lr_16_64_k"⟩),
     ("high_speed_barage", ⟨0.225, .single "comb_qc_p"⟩),
     ("super_art", ⟨0.1, .variants "comb_2qc_mp" "comb_2qc_mp" "comb_2qc_mp"⟩)]),
   ("Oro",
    [("niu_riki", ⟨0.225, .single "comb_hc_p"⟩),
     ("nichirin_shou", ⟨0.225, .single "hold_lr_16_64_p"⟩),
     ("oni_yanma", ⟨0.225, .single "hold_d_16_64_p"⟩),
     ("jinchuu_watari_hitobashira_nobori", ⟨0.225, .single "comb_qc_k"⟩),
     ("super_art",
      ⟨0.1, .variants "comb_2qc_mp/hold_lr_4_24_p" "comb_2qc_mp" "comb_2qc_mp"⟩)]),
   ("Urien",
    [("metallic_sphere", ⟨0.225, .single "comb_qc_p/rep_p_0_12_"⟩),
     ("chariot_tackle", ⟨0.225, .single "hold_lr_16_64_k"⟩),
     ("dangerous_headbutt", ⟨0.225, .single "hold_d_16_64_p"⟩),
     ("violence_knee_drop", ⟨0.225, .single "hold_d_16_64_k"⟩),
     ("super_art", ⟨0.1, .variants "comb_2qc_mp" "comb_2qc_mp" "comb_2qc_mp"⟩)]),
   ("Remy",
    [("light_of_virtue", ⟨0.225, .single "hold_lr_16_64_p"⟩),
     ("light_of_virtue_low", ⟨0.225, .single "hold_lr_16_64_k"⟩),
     ("rising_rage_flash", ⟨0.225, .single "hold_d_16_128_k"⟩),
     ("cold_blue_kick", ⟨0.225, .single "comb_qc_k"⟩),
     ("super_art", ⟨0.1, .variants "comb_2qc_mp" "comb_2qc_mk" "comb_2qc_mk"⟩)]),
   ("Ryu",
    [("hadouken", ⟨0.225, .single "comb_qc_p"⟩),
     ("shoryuken", ⟨0.225, .single "comb_dp_p"⟩),
     ("tatsumaki_senpukyaku", ⟨0.225, .single "comb_qc_k"⟩),
     ("joudan_sokutou_geri", ⟨0.225, .single "comb_hc_k"⟩),
     ("super_art",
      ⟨0.1, .variants "comb_2qc_mp" "comb_2qc_mp" "comb_2qc_mp/rep_mp_0_16_"⟩)]),
   ("Gouki",
    [("go_zankuu_hadouken", ⟨0.15, .single "comb_qc_p"⟩),
     ("shakenutsu-hadouken", ⟨0.15, .single "comb_hc_p"⟩),
     ("go_shoryuken", ⟨0.15, .single "comb_dp_p"⟩),
     ("tatsumaki_senpukyaku", ⟨0.15, .single "comb_qc_k"⟩),
     ("hyakkishu_go", ⟨0.075, .single "comb_dp_k/rep_p_0_2_t"⟩),
     ("hyakkishu_sho", ⟨0.075, .single "comb_dp_k/rep_k_0_2_t"⟩),
     ("hyakkishu_sho_sai", ⟨0.075, .single "comb_dp_k/rep_mpk_0_2_t"⟩),
     ("shun_goku_satsu",
      ⟨0.055, .single "raw_+lp_+_+lp/comb_lr_/raw_+lk_+_+hp"⟩),
     ("target_combo_1", ⟨0.02, .single "rep_mp_5_5_t/raw_+/rep_hp_5_5_t"⟩),
     ("super_art", ⟨0.1, .variants "comb_2qc_mp" "comb_2qc_mp" "comb_2qc_mk"⟩)]),
   ("Yun",
    [("zenpou_tenshin", ⟨0.225, .single "comb_hc_k"⟩),
     ("kobokushi_zesshou_hohou", ⟨0.225, .single "comb_qc_p"⟩),
     ("tetsuzanko", ⟨0.225, .single "comb_dp_p"⟩),
     ("nishoukyaku", ⟨0.225, .single "comb_dp_k"⟩),
     ("super_art", ⟨0.1, .variants "comb_2qc_mp" "comb_2qc_mp" "comb_2qc_mk"⟩)]),
   ("Yang",
    [("tourou_zan_byakko_soushouda", ⟨0.225, .single "comb_qc_p"⟩),
     ("senkyuutai", ⟨0.225, .single "comb_qc_k"⟩),
     ("zenpou_tenshin", ⟨0.225, .single "comb_hc_k"⟩),
     ("kaihou", ⟨0.225, .single "comb_dp_k"⟩),
     ("super_art", ⟨0.1, .variants "comb_2qc_mp" "comb_2qc_mk" "comb_2qc_mp"⟩)]),
   ("Ken",
    [("hadouken", ⟨0.225, .single "comb_qc_p"⟩),
     ("shoryuken", ⟨0.225, .single "comb_dp_p"⟩),
     ("tatsumaki_senpukyaku", ⟨0.225, .single "comb_qc_k"⟩),
     ("grab", ⟨0.225, .single "rep_lpk_1_8_t"⟩),
     ("super_art",
      ⟨0.1, .variants "comb_2qc_mp" "comb_2qc_mk/rep_mk_0_16_t" "comb_2qc_mk"⟩)])]

/-- The body executed when the weighted loop of
`ComboInjector.sample_character_special` fires on move `(name, e)`:
a `super_art` entry selects `combo_str_{superArt}` (a `KeyError`, i.e. `none`,
for any other super-art value or a shape mismatch), any other entry selects
its `combo_str`. -/
def moveAction (frameSkip : Nat) (name : String) (e : MoveEntry)
    (superArt : Nat) (r : Rng) : Option (List String × Rng) :=
  if name = "super_art" then
    match e.combo with
    | .variants s1 s2 s3 =>
      match superArt with
      | 1 => _decode_action_string frameSkip s1 r
      | 2 => _decode_action_string frameSkip s2 r
      | 3 => _decode_action_string frameSkip s3 r
      | _ => none
    | .single _ => none
  else
    match e.combo with
    | .single s => _decode_action_string frameSkip s r
    | .variants _ _ _ => none

/-- The `for move_name, params in moves_dict.items()` loop of
`sample_character_special`, with the accumulated probability threaded, and the
`np.random.choice(self._base_actions)` single-token fallback after the loop. -/
def selectLoop (frameSkip superArt : Nat) (roll : ℚ) :
    List (String × MoveEntry) → ℚ → Rng → Option (List String × Rng)
  | [], _, r =>
    let t := npChoice baseActions r
    some ([t.1], t.2)
  | (name, e) :: rest, acc, r =>
    let acc' := acc + e.prob
    if roll ≤ acc' then moveAction frameSkip name e superArt r
    else selectLoop frameSkip superArt roll rest acc' r

/-- `ComboInjector.sample_character_special`: look the character up (a missing
character raises, `none`), draw the roll, run the weighted loop. -/
def sample_character_special (frameSkip : Nat) (character : String)
    (superArt : Nat) (r : Rng) : Option (List String × Rng) :=
  match charactersSfiii.find? (fun cm => cm.1 == character) with
  | none => none
  | some cm =>
    let roll := npRand r
    selectLoop frameSkip superArt roll.1 cm.2 0 roll.2

/-- `ComboInjector.sample_movement_action` (defaults `prob_dash=0.15`,
`repeat_min=12`, `repeat_max=64`). -/
def sample_movement_action (probDash : ℚ) (repeatMin repeatMax frameSkip : Nat)
    (r : Rng) : Option (List String × Rng) :=
  let roll := npRand r
  if roll.1 < probDash then
    let mv := npChoice ["r+", "l+"] roll.2
    some ([mv.1, "+", mv.1], mv.2)
  else
    let rep := npChoice ["l+", "dl+", "d+", "dr+", "r+"] roll.2
    match npRandint (repeatMin / frameSkip) (repeatMax / frameSkip) rep.2 with
    | none => none
    | some nr => some (List.replicate nr.1 rep.1, nr.2)

/-- `ComboInjector.sample_jump_action` (default `prob_super_jump=0.15`);
`moves[np.random.randint(len(moves))]` indexes the three super-jump variants. -/
def sample_jump_action (probSuperJump : ℚ) (r : Rng) : List String × Rng :=
  let roll := npRand r
  if roll.1 < probSuperJump then
    let n := drawNat roll.2
    ([["d+", "ul+"], ["d+", "u+"], ["d+", "ur+"]].getD (n.1 % 3) [], n.2)
  else
    let mv := npChoice ["ul+", "u+", "ur+"] roll.2
    ([mv.1], mv.2)

/-- `ComboInjector.string_to_idx`: exact lookup with a
`np.random.randint(0, len(self.action_idx_lookup))` substitution on a
`KeyError` (the diagnostic print is not modelled). -/
def string_to_idx : List String → Rng → List Nat × Rng
  | [], r => ([], r)
  | s :: rest, r =>
    match actionIdxLookup s with
    | some i =>
      let p := string_to_idx rest r
      (i :: p.1, p.2)
    | none =>
      let n := drawNat r
      let p := string_to_idx rest n.2
      (n.1 % baseActions.length :: p.1, p.2)

/-- Per-agent state (`self.agent_state[agent_id]`): the pending queue of
action indices plus the registered character and super art. -/
structure AgentState where
  moveSequence : List Nat
  character : String
  superArt : Nat
  deriving DecidableEq, Repr

/-- `ComboInjector.in_sequence`. -/
def in_sequence (st : AgentState) : Bool :=
  decide (0 < st.moveSequence.length)

/-- Whether a character name is a key of `self.characters['sfiii']`. -/
def validChar (c : String) : Bool :=
  (charactersSfiii.find? fun cm => cm.1 == c).isSome

/-- The agent-registration loop of `ComboInjector.reset`, keyed `agent_{i}`;
the second component carries the raised `NotImplementedError` message, and the
first the registrations performed before the failure (none are rolled back). -/
def resetGo : Nat → List (String × Nat) → List (String × AgentState) × Option String
  | _, [] => ([], none)
  | i, (c, a) :: rest =>
    if validChar c = false then
      ([], some ("Character '" ++ c ++ "' not supported yet."))
    else if ¬(a = 1 ∨ a = 2 ∨ a = 3) then
      ([], some ("Super art '" ++ toString a ++ "' not supported."))
    else
      let p := resetGo (i + 1) rest
      (("agent_" ++ toString i, ⟨[], c, a⟩) :: p.1, p.2)

/-- `ComboInjector.reset`: the old `self.agent_state` is discarded (the result
does not depend on it) and the zipped character/super-art lists are registered
in order until the first invalid entry. -/
def reset (characters : List String) (superArts : List Nat) :
    List (String × AgentState) × Option String :=
  resetGo 0 (characters.zip superArts)

/-- The cancel-truncation step of the combo branch of `ComboInjector.sample`
(lines 778-780): one `np.random.rand()` draw, and on success a prefix of
length `np.random.randint(1, len(seq_idx) + 1)`. -/
def cancelStep (probCancel : ℚ) (seqIdx : List Nat) (r : Rng) :
    Option (List Nat × Rng) :=
  let c := npRand r
  if c.1 < probCancel then
    match npRandint 1 (seqIdx.length + 1) c.2 with
    | none => none
    | some nr => some (seqIdx.take nr.1, nr.2)
  else some (seqIdx, c.2)

/-- The category draw and queue refill executed by `ComboInjector.sample` for
an agent whose queue is empty: normalized cumulative weights over
(jump, basic, combo, movement), then the chosen branch (movement and jump use
their Python default arguments, as in the source). -/
def sampleNewSequence (probJump probBasic probCombo probCancel probMovement : ℚ)
    (frameSkip : Nat) (character : String) (superArt : Nat) (r : Rng) :
    Option (List Nat × Rng) :=
  let s := probJump + probBasic + probCombo + probMovement
  let cdf0 := probJump / s
  let cdf1 := (probJump + probBasic) / s
  let cdf2 := (probJump + probBasic + probCombo) / s
  let roll := npRand r
  if roll.1 < cdf0 then
    let j := sample_jump_action 0.15 roll.2
    some (string_to_idx j.1 j.2)
  else if roll.1 < cdf1 then
    let n := drawNat roll.2
    some ([n.1 % baseActions.length], n.2)
  else if roll.1 < cdf2 then
    match sample_character_special frameSkip character superArt roll.2 with
    | none => none
    | some p =>
      let q := string_to_idx p.1 p.2
      cancelStep probCancel q.1 q.2
  else
    match sample_movement_action 0.15 12 64 frameSkip roll.2 with
    | none => none
    | some p => some (string_to_idx p.1 p.2)

/-- The per-agent body of `ComboInjector.sample`: refill the queue when
`in_sequence` is false, then `popleft` one index (`none` models the
`IndexError` on an empty deque) and decode it through `self.input_lookup`
(`none` models the `KeyError`). Returns the `(discrete, multi_discrete)`
result, the updated agent state and the advanced random source. -/
def sampleStepAgent (probJump probBasic probCombo probCancel probMovement : ℚ)
    (frameSkip : Nat) (st : AgentState) (r : Rng) :
    Option ((Nat × (Nat × Nat)) × AgentState × Rng) :=
  let filled :=
    if in_sequence st then some (st.moveSequence, r)
    else sampleNewSequence probJump probBasic probCombo probCancel probMovement
      frameSkip st.character st.superArt r
  match filled with
  | none => none
  | some p =>
    match p.1 with
    | [] => none
    | aIdx :: restSeq =>
      match inputLookup aIdx with
      | none => none
      | some aMulti =>
        some ((aIdx, aMulti), { st with moveSequence := restSeq }, p.2)

/-- `ComboInjector.sample`: iterate the per-agent step over the registered
agents in registration order, threading the shared random source. -/
def sample (probJump probBasic probCombo probCancel probMovement : ℚ)
    (frameSkip : Nat) :
    List (String × AgentState) → Rng →
      Option (List (String × (Nat × (Nat × Nat))) × List (String × AgentState) × Rng)
  | [], r => some ([], [], r)
  | (id, st) :: rest, r =>
    match sampleStepAgent probJump probBasic probCombo probCancel probMovement
      frameSkip st r with
    | none => none
    | some p =>
      match sample probJump probBasic probCombo probCancel probMovement
        frameSkip rest p.2.2 with
      | none => none
      | some q => some ((id, p.1) :: q.1, (id, p.2.1) :: q.2.1, q.2.2)

/-- Totality of a decoded segment: for every random source the segment decodes
without raising. -/
def SegTotal (s : String) : Prop :=
  ∀ r : Rng, ∃ l r', decodeSegment 4 s r = some (l, r')

/-- A decoded segment that never raises and always yields at least one token
(at the default frame skip 4). -/
def SegGood (s : String) : Prop :=
  ∀ r : Rng, ∃ l r', decodeSegment 4 s r = some (l, r') ∧ l ≠ []

/-- A descriptor string that always compiles to a non-empty token list
(at the default frame skip 4). -/
def DecGood (s : String) : Prop :=
  ∀ r : Rng, ∃ l r', _decode_action_string 4 s r = some (l, r') ∧ l ≠ []

/-- A move entry whose firing branch in `sample_character_special` always
yields a non-empty token list for the given super art. -/
def GoodMove (superArt : Nat) (m : String × MoveEntry) : Prop :=
  ∀ r : Rng, ∃ l r', moveAction 4 m.1 m.2 superArt r = some (l, r') ∧ l ≠ []

/-- Every distinct `combo_str` appearing in `self.characters['sfiii']`. -/
def repoDescriptorStrings : List String :=
  ["comb_hc_p", "comb_hc_k", "comb_qc_p", "comb_qc_k", "comb_dp_p",
   "comb_dp_k", "comb_fc_p", "comb_fc_k", "comb_fc_mp", "comb_2fc_mp",
   "comb_2qc_mp", "comb_2qc_mk",
   "hold_d_16_64_k", "hold_d_16_64_p", "hold_d_16_128_k",
   "hold_lr_16_64_k", "hold_lr_16_64_p",
   "rep_k_3_16_t", "rep_lpk_1_8_t",
   "comb_qc_p/rep_p_3_12_t", "comb_2qc_mp/rep_mp_0_8_",
   "comb_hc_p/rep_p_0_8_", "comb_2qc_mp/rep_mp_0_12_t",
   "comb_qc_p/rep_p_0_8_", "comb_2qc_mp/rep_mp_0_16_t",
   "comb_hc_k/rep_p_0_4_t", "comb_hc_k/rep_k_0_4_t",
   "comb_2qc_mp/rep_mp_3_12_t", "comb_dp_p/rep_p_0_12_t",
   "hold_lr_16_64_p/rep_p_0_8_", "comb_qc_p/rep_p_0_12_",
   "comb_2qc_mp/rep_mp_0_16_", "comb_dp_k/rep_p_0_2_t",
   "comb_dp_k/rep_k_0_2_t", "comb_dp_k/rep_mpk_0_2_t",
   "raw_+lp_+_+lp/comb_lr_/raw_+lk_+_+hp", "rep_mp_5_5_t/raw_+/rep_hp_5_5_t",
   "comb_2qc_mp/hold_lr_4_24_p", "comb_2qc_mk/rep_mk_0_16_t"]

/-- Validity of one zipped `(character, super_art)` entry as checked by
`ComboInjector.reset`. -/
def EntryOk (p : String × Nat) : Prop :=
  validChar p.1 = true ∧ (p.2 = 1 ∨ p.2 = 2 ∨ p.2 = 3)

instance (p : String × Nat) : Decidable (EntryOk p) := by
  unfold EntryOk
  infer_instance

/-- The agent map built by a run of the `reset` loop over the given entries,
starting at agent index `i` (used to state what `reset` registers before a
failure). -/
def registeredOf : Nat → List (String × Nat) → List (String × AgentState)
  | _, [] => []
  | i, (c, a) :: rest =>
    ("agent_" ++ toString i, ⟨[], c, a⟩) :: registeredOf (i + 1) rest

/-- Accumulated probability of the first `k` moves of a moveset (the running
`prob_acc` of `sample_character_special`). -/
def probAcc (moves : List (String × MoveEntry)) (k : Nat) : ℚ :=
  ((moves.take k).map fun m => m.2.prob).sum

/-! ### Basic lemmas about the random primitives -/

/-- Sanity check: a quarter-circle punch on a concrete random source. -/
theorem decode_comb_sanity :
    (_decode_action_string 4 "comb_qc_p" ⟨[0, 1], []⟩).map (·.1) =
      some ["d+", "dr+", "r+mp"] := by decide

/-- Sanity check: a tapped repeat on a concrete random source. -/
theorem decode_rep_sanity :
    (_decode_action_string 4 "rep_p_3_12_t" ⟨[0, 2], []⟩).map (·.1) =
      some ["+lp", "+", "+lp", "+", "+lp", "+", "+lp", "+", "+lp", "+"] := by
  decide

/-- Sanity check: a held-down charge with kick release on a concrete random
source. -/
theorem decode_hold_sanity :
    (_decode_action_string 4 "hold_d_16_64_k" ⟨[1, 0, 2], []⟩).map (·.1) =
      some ["dr+", "dr+", "dr+", "dr+", "u+mk"] := by decide


theorem npChoice_fst_mem (xs : List String) (r : Rng) (h : xs ≠ []) :
    (npChoice xs r).1 ∈ xs := by
  unfold npChoice drawNat
  have hlen : 0 < xs.length := List.length_pos.mpr h
  have hlt : r.nats.headI % xs.length < xs.length := Nat.mod_lt _ hlen
  simp only []
  rw [List.getD_eq_getElem _ _ hlt]
  exact List.getElem_mem _

theorem npRandint_pos (lo hi : Nat) (r : Rng) (h : lo < hi) :
    ∃ n r', npRandint lo hi r = some (n, r') ∧ lo ≤ n ∧ n < hi := by
  refine ⟨lo + r.nats.headI % (hi - lo), ⟨r.nats.tail, r.rats⟩, ?_, ?_, ?_⟩
  · simp [npRandint, drawNat, h]
  · omega
  · have := Nat.mod_lt r.nats.headI (show 0 < hi - lo by omega)
    omega

theorem resolveAttack_ne_empty (a : String) (r : Rng) (h : a ≠ "") :
    (resolveAttack a r).1 ≠ "" := by
  unfold resolveAttack
  split_ifs with hp hk
  · have := npChoice_fst_mem ["lp", "mp", "hp"] r (by decide)
    intro he
    rw [he] at this
    simp at this
  · have := npChoice_fst_mem ["lk", "mk", "hk"] r (by decide)
    intro he
    rw [he] at this
    simp at this
  · simpa using h

theorem resolveAttack_empty (r : Rng) : resolveAttack "" r = ("", r) := by
  simp [resolveAttack]

/-! ### The combine primitive -/

theorem patternOf_choice_pos (a b : String) (r : Rng)
    (ha : 0 < (patternOf a).length) (hb : 0 < (patternOf b).length) :
    0 < (patternOf (npChoice [a, b] r).1).length := by
  have h := npChoice_fst_mem [a, b] r (by simp)
  simp only [List.mem_cons, List.mem_singleton, List.not_mem_nil, or_false]
    at h
  rcases h with h | h <;> rw [h] <;> assumption

theorem combMoveSeq_length_pos (m : String) (r : Rng) :
    0 < (combMoveSeq m r).1.length := by
  unfold combMoveSeq
  split_ifs <;>
    simp only [List.length_append, List.length_cons, List.length_nil] <;>
    first
      | exact patternOf_choice_pos _ _ r (by decide) (by decide)
      | exact Nat.lt_of_lt_of_le
          (patternOf_choice_pos _ _ r (by decide) (by decide))
          (Nat.le_add_right _ _)
      | omega

/-- Helper: the compiled tokens of `_combine_actions` have the length of the
movement sequence (the attack list is built to the same length). -/
theorem _combine_actions_length (m a : String) (r : Rng) :
    (_combine_actions m a r).1.length = (combMoveSeq m r).1.length := by
  unfold _combine_actions
  have hpos := combMoveSeq_length_pos m r
  simp only [List.length_map, List.length_zip, List.length_append,
    List.length_replicate, List.length_cons, List.length_nil]
  omega

theorem _combine_actions_ne_nil (m a : String) (r : Rng) :
    (_combine_actions m a r).1 ≠ [] := by
  have h1 := _combine_actions_length m a r
  have h2 := combMoveSeq_length_pos m r
  intro hnil
  rw [hnil] at h1
  simp at h1
  omega

/-! ### The hold primitive -/

theorem zipTokensNil (n : Nat) (dh : String) :
    ((List.replicate n dh).zip (List.replicate n "")).map
      (fun p => p.1 ++ "+" ++ p.2) = List.replicate n (dh ++ "+") := by
  rw [List.zip_replicate']
  simp [List.map_replicate, String.append_empty]

theorem zipTokensRel (n : Nat) (dh s1 s2 : String) :
    ((List.replicate n dh ++ [s1]).zip (List.replicate n "" ++ [s2])).map
      (fun p => p.1 ++ "+" ++ p.2) =
    List.replicate n (dh ++ "+") ++ [s1 ++ "+" ++ s2] := by
  rw [List.zip_append (by simp), List.zip_replicate']
  simp [List.map_replicate, String.append_empty]

/-- Full characterisation of `_hold_direction` for the `'d'`/`'lr'` direction
classes on a non-empty step range: the held direction is repeated `numSteps`
times with `numSteps` drawn from `[minF / fs, (maxF + 1) / fs)`, followed by
one release step exactly when the release argument is non-empty. -/
theorem _hold_direction_spec (direction minS maxS rel : String)
    (minF maxF fs : Nat) (r : Rng)
    (hmin : parseNat minS = some minF) (hmax : parseNat maxS = some maxF)
    (hrange : minF / fs < (maxF + 1) / fs)
    (hd : direction = "d" ∨ direction = "lr") :
    ∃ dirHeld numSteps relPart r',
      _hold_direction direction minS maxS rel fs r =
        some (List.replicate numSteps (dirHeld ++ "+") ++ relPart, r') ∧
      minF / fs ≤ numSteps ∧ numSteps < (maxF + 1) / fs ∧
      relPart.length = (if rel = "" then 0 else 1) := by
  obtain ⟨n, r', hr, hlo, hhi⟩ :=
    npRandint_pos (minF / fs) ((maxF + 1) / fs) (resolveAttack rel r).2 hrange
  unfold _hold_direction
  simp only [hmin, hmax, hr]
  by_cases hrel : rel = ""
  · subst hrel
    rw [resolveAttack_empty]
    rcases hd with rfl | rfl
    · refine ⟨(npChoice ["d", "dl", "dr"] r').1, n, [],
        (npChoice ["d", "dl", "dr"] r').2, ?_, hlo, hhi, by simp⟩
      simp [List.zip_replicate', List.map_replicate, String.append_empty]
    · refine ⟨(npChoice ["l", "dl", "dr", "r"] r').1, n, [],
        (npChoice ["l", "dl", "dr", "r"] r').2, ?_, hlo, hhi, by simp⟩
      simp [List.zip_replicate', List.map_replicate, String.append_empty]
  · have hne : (resolveAttack rel r).1 ≠ "" := resolveAttack_ne_empty rel r hrel
    rcases hd with rfl | rfl
    · refine ⟨(npChoice ["d", "dl", "dr"] r').1, n,
        ["u" ++ "+" ++ (resolveAttack rel r).1],
        (npChoice ["d", "dl", "dr"] r').2, ?_, hlo, hhi, by simp [hrel]⟩
      simp only [if_neg hne, reduceIte, String.reduceEq, List.length_append,
        List.length_replicate, List.length_cons, List.length_nil,
        Nat.add_sub_cancel, zipTokensRel]
    · refine ⟨(npChoice ["l", "dl", "dr", "r"] r').1, n,
        [(if (npChoice ["l", "dl", "dr", "r"] r').1.endsWith "r"
            then "l" else "r") ++ "+" ++ (resolveAttack rel r).1],
        (npChoice ["l", "dl", "dr", "r"] r').2, ?_, hlo, hhi, by simp [hrel]⟩
      simp only [if_neg hne, reduceIte, String.reduceEq, List.length_append,
        List.length_replicate, List.length_cons, List.length_nil,
        Nat.add_sub_cancel, zipTokensRel]

/-! ### The repeat primitive -/

/-- Full characterisation of `_repeat_attack` when `minR ≤ maxR`: the repeat
count is drawn from the inclusive range `[minR, maxR]`, the attack is resolved
once and reused, and each attack step is followed by one `'+'` filler exactly
when `tap` is non-empty. -/
theorem _repeat_attack_spec (atkS minS maxS tap : String) (minR maxR : Nat)
    (r : Rng)
    (hmin : parseNat minS = some minR) (hmax : parseNat maxS = some maxR)
    (hle : minR ≤ maxR) :
    ∃ reps r',
      _repeat_attack atkS minS maxS tap r =
        some ((List.replicate reps
          (("+" ++ (resolveAttack atkS r).1) ::
            (if tap = "" then [] else ["+"]))).flatten, r') ∧
      minR ≤ reps ∧ reps ≤ maxR := by
  obtain ⟨n, r', hr, hlo, hhi⟩ :=
    npRandint_pos minR (maxR + 1) (resolveAttack atkS r).2 (by omega)
  unfold _repeat_attack
  simp only [hmin, hmax, hr]
  exact ⟨n, r', rfl, hlo, by omega⟩

/-! ### Decoding whole descriptors -/

theorem flatten_replicate_ne_nil (n : Nat) (x : String) (xs : List String)
    (h : 1 ≤ n) : (List.replicate n (x :: xs)).flatten ≠ [] := by
  cases n with
  | zero => omega
  | succ m => simp [List.replicate_succ]

theorem decodeSegments_cons_eq (seg : String) (rest : List String) (r : Rng)
    (l1 : List String) (r1 : Rng) (h : decodeSegment 4 seg r = some (l1, r1)) :
    decodeSegments 4 (seg :: rest) r =
      match decodeSegments 4 rest r1 with
      | none => none
      | some q => some (l1 ++ q.1, q.2) := by
  have hstep : decodeSegments 4 (seg :: rest) r =
      match decodeSegment 4 seg r with
      | none => none
      | some p =>
        match decodeSegments 4 rest p.2 with
        | none => none
        | some q => some (p.1 ++ q.1, q.2) := rfl
  rw [hstep, h]

theorem segGood_total (s : String) (h : SegGood s) : SegTotal s := by
  intro r
  obtain ⟨l, r', he, -⟩ := h r
  exact ⟨l, r', he⟩

theorem segsTotal_nil : ∀ r : Rng, ∃ l r', decodeSegments 4 [] r = some (l, r') :=
  fun r => ⟨[], r, rfl⟩

theorem segsTotal_cons (seg : String) (rest : List String) (h1 : SegTotal seg)
    (h2 : ∀ r, ∃ l r', decodeSegments 4 rest r = some (l, r')) :
    ∀ r, ∃ l r', decodeSegments 4 (seg :: rest) r = some (l, r') := by
  intro r
  obtain ⟨l1, r1, he1⟩ := h1 r
  obtain ⟨l2, r2, he2⟩ := h2 r1
  refine ⟨l1 ++ l2, r2, ?_⟩
  rw [decodeSegments_cons_eq seg rest r l1 r1 he1, he2]

theorem decGood_build (s seg : String) (rest : List String)
    (h : ∀ r, _decode_action_string 4 s r = decodeSegments 4 (seg :: rest) r)
    (h1 : SegGood seg)
    (h2 : ∀ r, ∃ l r', decodeSegments 4 rest r = some (l, r')) : DecGood s := by
  intro r
  obtain ⟨l1, r1, he1, hne⟩ := h1 r
  obtain ⟨l2, r2, he2⟩ := h2 r1
  refine ⟨l1 ++ l2, r2, ?_, by simp [hne]⟩
  rw [h r, decodeSegments_cons_eq seg rest r l1 r1 he1, he2]

theorem segGood_of_comb (s m a : String)
    (h : ∀ r, decodeSegment 4 s r = some (_combine_actions m a r)) :
    SegGood s :=
  fun r => ⟨(_combine_actions m a r).1, (_combine_actions m a r).2, h r,
    _combine_actions_ne_nil m a r⟩

theorem segGood_of_hold (s d minS maxS rel : String) (minF maxF : Nat)
    (h : ∀ r, decodeSegment 4 s r = _hold_direction d minS maxS rel 4 r)
    (hmin : parseNat minS = some minF) (hmax : parseNat maxS = some maxF)
    (hrange : minF / 4 < (maxF + 1) / 4)
    (hd : d = "d" ∨ d = "lr") (hrel : rel ≠ "") : SegGood s := by
  intro r
  obtain ⟨dh, n, relPart, r', heq, -, -, hlen⟩ :=
    _hold_direction_spec d minS maxS rel minF maxF 4 r hmin hmax hrange hd
  rw [if_neg hrel] at hlen
  refine ⟨List.replicate n (dh ++ "+") ++ relPart, r', by rw [h r, heq], ?_⟩
  intro hnil
  rcases List.append_eq_nil.mp hnil with ⟨-, h2⟩
  rw [h2] at hlen
  simp at hlen

theorem segTotal_of_rep (s atk minS maxS tap : String) (minR maxR : Nat)
    (h : ∀ r, decodeSegment 4 s r = _repeat_attack atk minS maxS tap r)
    (hmin : parseNat minS = some minR) (hmax : parseNat maxS = some maxR)
    (hle : minR ≤ maxR) : SegTotal s := by
  intro r
  obtain ⟨reps, r', heq, -, -⟩ :=
    _repeat_attack_spec atk minS maxS tap minR maxR r hmin hmax hle
  exact ⟨_, r', by rw [h r, heq]⟩

theorem segGood_of_rep (s atk minS maxS tap : String) (minR maxR : Nat)
    (h : ∀ r, decodeSegment 4 s r = _repeat_attack atk minS maxS tap r)
    (hmin : parseNat minS = some minR) (hmax : parseNat maxS = some maxR)
    (hle : minR ≤ maxR) (hpos : 1 ≤ minR) : SegGood s := by
  intro r
  obtain ⟨reps, r', heq, hlo, -⟩ :=
    _repeat_attack_spec atk minS maxS tap minR maxR r hmin hmax hle
  refine ⟨_, r', by rw [h r, heq], ?_⟩
  exact flatten_replicate_ne_nil reps _ _ (by omega)

/-! ### Every descriptor string in the move data compiles non-empty -/

theorem dg01 : DecGood "comb_hc_p" :=
  decGood_build "comb_hc_p" "comb_hc_p" []
    (fun _ => rfl)
    (segGood_of_comb "comb_hc_p" "hc" "p" fun _ => rfl)
    segsTotal_nil

theorem dg02 : DecGood "comb_hc_k" :=
  decGood_build "comb_hc_k" "comb_hc_k" []
    (fun _ => rfl)
    (segGood_of_comb "comb_hc_k" "hc" "k" fun _ => rfl)
    segsTotal_nil

theorem dg03 : DecGood "comb_qc_p" :=
  decGood_build "comb_qc_p" "comb_qc_p" []
    (fun _ => rfl)
    (segGood_of_comb "comb_qc_p" "qc" "p" fun _ => rfl)
    segsTotal_nil

theorem dg04 : DecGood "comb_qc_k" :=
  decGood_build "comb_qc_k" "comb_qc_k" []
    (fun _ => rfl)
    (segGood_of_comb "comb_qc_k" "qc" "k" fun _ => rfl)
    segsTotal_nil

theorem dg05 : DecGood "comb_dp_p" :=
  decGood_build "comb_dp_p" "comb_dp_p" []
    (fun _ => rfl)
    (segGood_of_comb "comb_dp_p" "dp" "p" fun _ => rfl)
    segsTotal_nil

theorem dg06 : DecGood "comb_dp_k" :=
  decGood_build "comb_dp_k" "comb_dp_k" []
    (fun _ => rfl)
    (segGood_of_comb "comb_dp_k" "dp" "k" fun _ => rfl)
    segsTotal_nil

theorem dg07 : DecGood "comb_fc_p" :=
  decGood_build "comb_fc_p" "comb_fc_p" []
    (fun _ => rfl)
    (segGood_of_comb "comb_fc_p" "fc" "p" fun _ => rfl)
    segsTotal_nil

theorem dg08 : DecGood "comb_fc_k" :=
  decGood_build "comb_fc_k" "comb_fc_k" []
    (fun _ => rfl)
    (segGood_of_comb "comb_fc_k" "fc" "k" fun _ => rfl)
    segsTotal_nil

theorem dg09 : DecGood "comb_fc_mp" :=
  decGood_build "comb_fc_mp" "comb_fc_mp" []
    (fun _ => rfl)
    (segGood_of_comb "comb_fc_mp" "fc" "mp" fun _ => rfl)
    segsTotal_nil

theorem dg10 : DecGood "comb_2fc_mp" :=
  decGood_build "comb_2fc_mp" "comb_2fc_mp" []
    (fun _ => rfl)
    (segGood_of_comb "comb_2fc_mp" "2fc" "mp" fun _ => rfl)
    segsTotal_nil

theorem dg11 : DecGood "comb_2qc_mp" :=
  decGood_build "comb_2qc_mp" "comb_2qc_mp" []
    (fun _ => rfl)
    (segGood_of_comb "comb_2qc_mp" "2qc" "mp" fun _ => rfl)
    segsTotal_nil

theorem dg12 : DecGood "comb_2qc_mk" :=
  decGood_build "comb_2qc_mk" "comb_2qc_mk" []
    (fun _ => rfl)
    (segGood_of_comb "comb_2qc_mk" "2qc" "mk" fun _ => rfl)
    segsTotal_nil

theorem dg13 : DecGood "hold_d_16_64_k" :=
  decGood_build "hold_d_16_64_k" "hold_d_16_64_k" []
    (fun _ => rfl)
    (segGood_of_hold "hold_d_16_64_k" "d" "16" "64" "k" 16 64
      (fun _ => rfl) (by decide) (by decide) (by decide) (Or.inl rfl) (by decide))
    segsTotal_nil

theorem dg14 : DecGood "hold_d_16_64_p" :=
  decGood_build "hold_d_16_64_p" "hold_d_16_64_p" []
    (fun _ => rfl)
    (segGood_of_hold "hold_d_16_64_p" "d" "16" "64" "p" 16 64
      (fun _ => rfl) (by decide) (by decide) (by decide) (Or.inl rfl) (by decide))
    segsTotal_nil

theorem dg15 : DecGood "hold_d_16_128_k" :=
  decGood_build "hold_d_16_128_k" "hold_d_16_128_k" []
    (fun _ => rfl)
    (segGood_of_hold "hold_d_16_128_k" "d" "16" "128" "k" 16 128
      (fun _ => rfl) (by decide) (by decide) (by decide) (Or.inl rfl) (by decide))
    segsTotal_nil

theorem dg16 : DecGood "hold_lr_16_64_k" :=
  decGood_build "hold_lr_16_64_k" "hold_lr_16_64_k" []
    (fun _ => rfl)
    (segGood_of_hold "hold_lr_16_64_k" "lr" "16" "64" "k" 16 64
      (fun _ => rfl) (by decide) (by decide) (by decide) (Or.inr rfl) (by decide))
    segsTotal_nil

theorem dg17 : DecGood "hold_lr_16_64_p" :=
  decGood_build "hold_lr_16_64_p" "hold_lr_16_64_p" []
    (fun _ => rfl)
    (segGood_of_hold "hold_lr_16_64_p" "lr" "16" "64" "p" 16 64
      (fun _ => rfl) (by decide) (by decide) (by decide) (Or.inr rfl) (by decide))
    segsTotal_nil

theorem dg18 : DecGood "rep_k_3_16_t" :=
  decGood_build "rep_k_3_16_t" "rep_k_3_16_t" []
    (fun _ => rfl)
    (segGood_of_rep "rep_k_3_16_t" "k" "3" "16" "t" 3 16
      (fun _ => rfl) (by decide) (by decide) (by decide) (by decide))
    segsTotal_nil

theorem dg19 : DecGood "rep_lpk_1_8_t" :=
  decGood_build "rep_lpk_1_8_t" "rep_lpk_1_8_t" []
    (fun _ => rfl)
    (segGood_of_rep "rep_lpk_1_8_t" "lpk" "1" "8" "t" 1 8
      (fun _ => rfl) (by decide) (by decide) (by decide) (by decide))
    segsTotal_nil

theorem dg20 : DecGood "comb_qc_p/rep_p_3_12_t" :=
  decGood_build "comb_qc_p/rep_p_3_12_t" "comb_qc_p" ["rep_p_3_12_t"]
    (fun _ => rfl)
    (segGood_of_comb "comb_qc_p" "qc" "p" fun _ => rfl)
    (segsTotal_cons "rep_p_3_12_t" []
      (segTotal_of_rep "rep_p_3_12_t" "p" "3" "12" "t" 3 12
      (fun _ => rfl) (by decide) (by decide) (by decide))
      segsTotal_nil)

theorem dg21 : DecGood "comb_2qc_mp/rep_mp_0_8_" :=
  decGood_build "comb_2qc_mp/rep_mp_0_8_" "comb_2qc_mp" ["rep_mp_0_8_"]
    (fun _ => rfl)
    (segGood_of_comb "comb_2qc_mp" "2qc" "mp" fun _ => rfl)
    (segsTotal_cons "rep_mp_0_8_" []
      (segTotal_of_rep "rep_mp_0_8_" "mp" "0" "8" "" 0 8
      (fun _ => rfl) (by decide) (by decide) (by decide))
      segsTotal_nil)

theorem dg22 : DecGood "comb_hc_p/rep_p_0_8_" :=
  decGood_build "comb_hc_p/rep_p_0_8_" "comb_hc_p" ["rep_p_0_8_"]
    (fun _ => rfl)
    (segGood_of_comb "comb_hc_p" "hc" "p" fun _ => rfl)
    (segsTotal_cons "rep_p_0_8_" []
      (segTotal_of_rep "rep_p_0_8_" "p" "0" "8" "" 0 8
      (fun _ => rfl) (by decide) (by decide) (by decide))
      segsTotal_nil)

theorem dg23 : DecGood "comb_2qc_mp/rep_mp_0_12_t" :=
  decGood_build "comb_2qc_mp/rep_mp_0_12_t" "comb_2qc_mp" ["rep_mp_0_12_t"]
    (fun _ => rfl)
    (segGood_of_comb "comb_2qc_mp" "2qc" "mp" fun _ => rfl)
    (segsTotal_cons "rep_mp_0_12_t" []
      (segTotal_of_rep "rep_mp_0_12_t" "mp" "0" "12" "t" 0 12
      (fun _ => rfl) (by decide) (by decide) (by decide))
      segsTotal_nil)

theorem dg24 : DecGood "comb_qc_p/rep_p_0_8_" :=
  decGood_build "comb_qc_p/rep_p_0_8_" "comb_qc_p" ["rep_p_0_8_"]
    (fun _ => rfl)
    (segGood_of_comb "comb_qc_p" "qc" "p" fun _ => rfl)
    (segsTotal_cons "rep_p_0_8_" []
      (segTotal_of_rep "rep_p_0_8_" "p" "0" "8" "" 0 8
      (fun _ => rfl) (by decide) (by decide) (by decide))
      segsTotal_nil)

theorem dg25 : DecGood "comb_2qc_mp/rep_mp_0_16_t" :=
  decGood_build "comb_2qc_mp/rep_mp_0_16_t" "comb_2qc_mp" ["rep_mp_0_16_t"]
    (fun _ => rfl)
    (segGood_of_comb "comb_2qc_mp" "2qc" "mp" fun _ => rfl)
    (segsTotal_cons "rep_mp_0_16_t" []
      (segTotal_of_rep "rep_mp_0_16_t" "mp" "0" "16" "t" 0 16
      (fun _ => rfl) (by decide) (by decide) (by decide))
      segsTotal_nil)

theorem dg26 : DecGood "comb_hc_k/rep_p_0_4_t" :=
  decGood_build "comb_hc_k/rep_p_0_4_t" "comb_hc_k" ["rep_p_0_4_t"]
    (fun _ => rfl)
    (segGood_of_comb "comb_hc_k" "hc" "k" fun _ => rfl)
    (segsTotal_cons "rep_p_0_4_t" []
      (segTotal_of_rep "rep_p_0_4_t" "p" "0" "4" "t" 0 4
      (fun _ => rfl) (by decide) (by decide) (by decide))
      segsTotal_nil)

theorem dg27 : DecGood "comb_hc_k/rep_k_0_4_t" :=
  decGood_build "comb_hc_k/rep_k_0_4_t" "comb_hc_k" ["rep_k_0_4_t"]
    (fun _ => rfl)
    (segGood_of_comb "comb_hc_k" "hc" "k" fun _ => rfl)
    (segsTotal_cons "rep_k_0_4_t" []
      (segTotal_of_rep "rep_k_0_4_t" "k" "0" "4" "t" 0 4
      (fun _ => rfl) (by decide) (by decide) (by decide))
      segsTotal_nil)

theorem dg28 : DecGood "comb_2qc_mp/rep_mp_3_12_t" :=
  decGood_build "comb_2qc_mp/rep_mp_3_12_t" "comb_2qc_mp" ["rep_mp_3_12_t"]
    (fun _ => rfl)
    (segGood_of_comb "comb_2qc_mp" "2qc" "mp" fun _ => rfl)
    (segsTotal_cons "rep_mp_3_12_t" []
      (segTotal_of_rep "rep_mp_3_12_t" "mp" "3" "12" "t" 3 12
      (fun _ => rfl) (by decide) (by decide) (by decide))
      segsTotal_nil)

theorem dg29 : DecGood "comb_dp_p/rep_p_0_12_t" :=
  decGood_build "comb_dp_p/rep_p_0_12_t" "comb_dp_p" ["rep_p_0_12_t"]
    (fun _ => rfl)
    (segGood_of_comb "comb_dp_p" "dp" "p" fun _ => rfl)
    (segsTotal_cons "rep_p_0_12_t" []
      (segTotal_of_rep "rep_p_0_12_t" "p" "0" "12" "t" 0 12
      (fun _ => rfl) (by decide) (by decide) (by decide))
      segsTotal_nil)

theorem dg30 : DecGood "hold_lr_16_64_p/rep_p_0_8_" :=
  decGood_build "hold_lr_16_64_p/rep_p_0_8_" "hold_lr_16_64_p" ["rep_p_0_8_"]
    (fun _ => rfl)
    (segGood_of_hold "hold_lr_16_64_p" "lr" "16" "64" "p" 16 64
      (fun _ => rfl) (by decide) (by decide) (by decide) (Or.inr rfl) (by decide))
    (segsTotal_cons "rep_p_0_8_" []
      (segTotal_of_rep "rep_p_0_8_" "p" "0" "8" "" 0 8
      (fun _ => rfl) (by decide) (by decide) (by decide))
      segsTotal_nil)

theorem dg31 : DecGood "comb_qc_p/rep_p_0_12_" :=
  decGood_build "comb_qc_p/rep_p_0_12_" "comb_qc_p" ["rep_p_0_12_"]
    (fun _ => rfl)
    (segGood_of_comb "comb_qc_p" "qc" "p" fun _ => rfl)
    (segsTotal_cons "rep_p_0_12_" []
      (segTotal_of_rep "rep_p_0_12_" "p" "0" "12" "" 0 12
      (fun _ => rfl) (by decide) (by decide) (by decide))
      segsTotal_nil)

theorem dg32 : DecGood "comb_2qc_mp/rep_mp_0_16_" :=
  decGood_build "comb_2qc_mp/rep_mp_0_16_" "comb_2qc_mp" ["rep_mp_0_16_"]
    (fun _ => rfl)
    (segGood_of_comb "comb_2qc_mp" "2qc" "mp" fun _ => rfl)
    (segsTotal_cons "rep_mp_0_16_" []
      (segTotal_of_rep "rep_mp_0_16_" "mp" "0" "16" "" 0 16
      (fun _ => rfl) (by decide) (by decide) (by decide))
      segsTotal_nil)

theorem dg33 : DecGood "comb_dp_k/rep_p_0_2_t" :=
  decGood_build "comb_dp_k/rep_p_0_2_t" "comb_dp_k" ["rep_p_0_2_t"]
    (fun _ => rfl)
    (segGood_of_comb "comb_dp_k" "dp" "k" fun _ => rfl)
    (segsTotal_cons "rep_p_0_2_t" []
      (segTotal_of_rep "rep_p_0_2_t" "p" "0" "2" "t" 0 2
      (fun _ => rfl) (by decide) (by decide) (by decide))
      segsTotal_nil)

theorem dg34 : DecGood "comb_dp_k/rep_k_0_2_t" :=
  decGood_build "comb_dp_k/rep_k_0_2_t" "comb_dp_k" ["rep_k_0_2_t"]
    (fun _ => rfl)
    (segGood_of_comb "comb_dp_k" "dp" "k" fun _ => rfl)
    (segsTotal_cons "rep_k_0_2_t" []
      (segTotal_of_rep "rep_k_0_2_t" "k" "0" "2" "t" 0 2
      (fun _ => rfl) (by decide) (by decide) (by decide))
      segsTotal_nil)

theorem dg35 : DecGood "comb_dp_k/rep_mpk_0_2_t" :=
  decGood_build "comb_dp_k/rep_mpk_0_2_t" "comb_dp_k" ["rep_mpk_0_2_t"]
    (fun _ => rfl)
    (segGood_of_comb "comb_dp_k" "dp" "k" fun _ => rfl)
    (segsTotal_cons "rep_mpk_0_2_t" []
      (segTotal_of_rep "rep_mpk_0_2_t" "mpk" "0" "2" "t" 0 2
      (fun _ => rfl) (by decide) (by decide) (by decide))
      segsTotal_nil)

theorem dg36 : DecGood "raw_+lp_+_+lp/comb_lr_/raw_+lk_+_+hp" :=
  decGood_build "raw_+lp_+_+lp/comb_lr_/raw_+lk_+_+hp" "raw_+lp_+_+lp" ["comb_lr_", "raw_+lk_+_+hp"]
    (fun _ => rfl)
    (fun r => ⟨["+lp", "+", "+lp"], r, rfl, by simp⟩)
    (segsTotal_cons "comb_lr_" ["raw_+lk_+_+hp"]
      (segGood_total _ (segGood_of_comb "comb_lr_" "lr" "" fun _ => rfl))
      (segsTotal_cons "raw_+lk_+_+hp" []
      (fun r => ⟨["+lk", "+", "+hp"], r, rfl⟩)
      segsTotal_nil))

theorem dg37 : DecGood "rep_mp_5_5_t/raw_+/rep_hp_5_5_t" :=
  decGood_build "rep_mp_5_5_t/raw_+/rep_hp_5_5_t" "rep_mp_5_5_t" ["raw_+", "rep_hp_5_5_t"]
    (fun _ => rfl)
    (segGood_of_rep "rep_mp_5_5_t" "mp" "5" "5" "t" 5 5
      (fun _ => rfl) (by decide) (by decide) (by decide) (by decide))
    (segsTotal_cons "raw_+" ["rep_hp_5_5_t"]
      (fun r => ⟨["+"], r, rfl⟩)
      (segsTotal_cons "rep_hp_5_5_t" []
      (segTotal_of_rep "rep_hp_5_5_t" "hp" "5" "5" "t" 5 5
      (fun _ => rfl) (by decide) (by decide) (by decide))
      segsTotal_nil))

theorem dg38 : DecGood "comb_2qc_mp/hold_lr_4_24_p" :=
  decGood_build "comb_2qc_mp/hold_lr_4_24_p" "comb_2qc_mp" ["hold_lr_4_24_p"]
    (fun _ => rfl)
    (segGood_of_comb "comb_2qc_mp" "2qc" "mp" fun _ => rfl)
    (segsTotal_cons "hold_lr_4_24_p" []
      (segGood_total _ (segGood_of_hold "hold_lr_4_24_p" "lr" "4" "24" "p" 4 24
      (fun _ => rfl) (by decide) (by decide) (by decide) (Or.inr rfl) (by decide)))
      segsTotal_nil)

theorem dg39 : DecGood "comb_2qc_mk/rep_mk_0_16_t" :=
  decGood_build "comb_2qc_mk/rep_mk_0_16_t" "comb_2qc_mk" ["rep_mk_0_16_t"]
    (fun _ => rfl)
    (segGood_of_comb "comb_2qc_mk" "2qc" "mk" fun _ => rfl)
    (segsTotal_cons "rep_mk_0_16_t" []
      (segTotal_of_rep "rep_mk_0_16_t" "mk" "0" "16" "t" 0 16
      (fun _ => rfl) (by decide) (by decide) (by decide))
      segsTotal_nil)


/-- Every descriptor string occurring in the move data compiles, for every
random source, to a non-empty token list at the default frame skip. -/
theorem repoGood : ∀ s ∈ repoDescriptorStrings, DecGood s := by
  intro s hs
  fin_cases hs
  exacts [dg01, dg02, dg03, dg04, dg05, dg06, dg07, dg08, dg09, dg10,
    dg11, dg12, dg13, dg14, dg15, dg16, dg17, dg18, dg19, dg20,
    dg21, dg22, dg23, dg24, dg25, dg26, dg27, dg28, dg29, dg30,
    dg31, dg32, dg33, dg34, dg35, dg36, dg37, dg38, dg39]

/-! ### The move selector -/

theorem goodMove_single (art : Nat) (name : String) (p : ℚ) (s : String)
    (hn : name ≠ "super_art") (hs : DecGood s) :
    GoodMove art (name, ⟨p, .single s⟩) := by
  intro r
  have hred : moveAction 4 name ⟨p, .single s⟩ art r =
      _decode_action_string 4 s r := by
    unfold moveAction
    rw [if_neg hn]
  show ∃ l r', moveAction 4 name ⟨p, .single s⟩ art r = some (l, r') ∧ l ≠ []
  rw [hred]
  exact hs r

theorem goodMove_super (art : Nat) (p : ℚ) (s1 s2 s3 : String)
    (hart : art = 1 ∨ art = 2 ∨ art = 3)
    (h1 : DecGood s1) (h2 : DecGood s2) (h3 : DecGood s3) :
    GoodMove art ("super_art", ⟨p, .variants s1 s2 s3⟩) := by
  rcases hart with rfl | rfl | rfl
  · exact fun r => h1 r
  · exact fun r => h2 r
  · exact fun r => h3 r

/-- Every move of every character in the roster fires into a non-empty
compiled sequence, for every legal super art. -/
theorem charactersGood (art : Nat) (hart : art = 1 ∨ art = 2 ∨ art = 3) :
    ∀ cm ∈ charactersSfiii, ∀ m ∈ cm.2, GoodMove art m := by
  intro cm hcm m hm
  fin_cases hcm <;> fin_cases hm <;>
    first
      | exact goodMove_single art _ _ _ (by decide) (repoGood _ (by decide))
      | exact goodMove_super art _ _ _ _ hart (repoGood _ (by decide))
          (repoGood _ (by decide)) (repoGood _ (by decide))

/-- The weighted selection loop of `sample_character_special` always yields a
non-empty sequence when every move of the list is good (the fallback after the
loop is a one-token list). -/
theorem selectLoop_good (art : Nat) (moves : List (String × MoveEntry))
    (h : ∀ m ∈ moves, GoodMove art m) :
    ∀ (roll acc : ℚ) (r : Rng), ∃ l r',
      selectLoop 4 art roll moves acc r = some (l, r') ∧ l ≠ [] := by
  induction moves with
  | nil =>
    intro roll acc r
    exact ⟨[(npChoice baseActions r).1], (npChoice baseActions r).2, rfl,
      by simp⟩
  | cons m rest ih =>
    intro roll acc r
    obtain ⟨name, e⟩ := m
    unfold selectLoop
    by_cases hc : roll ≤ acc + e.prob
    · simp only [if_pos hc]
      exact h (name, e) (List.mem_cons_self _ _) r
    · simp only [if_neg hc]
      exact ih (fun m hm => h m (List.mem_cons_of_mem _ hm)) roll
        (acc + e.prob) r

/-- `sample_character_special` never raises and never yields an empty
sequence for a roster character and a legal super art. -/
theorem sample_character_special_good (c : String) (art : Nat) (r : Rng)
    (hvalid : validChar c = true) (hart : art = 1 ∨ art = 2 ∨ art = 3) :
    ∃ l r', sample_character_special 4 c art r = some (l, r') ∧ l ≠ [] := by
  unfold validChar at hvalid
  obtain ⟨cm, hcm⟩ := Option.isSome_iff_exists.mp hvalid
  have hmem : cm ∈ charactersSfiii := List.mem_of_find?_eq_some hcm
  unfold sample_character_special
  rw [hcm]
  exact selectLoop_good art cm.2 (charactersGood art hart cm hmem)
    (npRand r).1 0 (npRand r).2

/-! ### Token encoding -/

theorem lookupIdx_lt_length (l : List String) (s : String) (i : Nat)
    (h : lookupIdx l s = some i) : i < l.length := by
  induction l generalizing i with
  | nil => simp [lookupIdx] at h
  | cons x xs ih =>
    unfold lookupIdx at h
    by_cases hx : x = s
    · simp only [hx, if_pos rfl] at h
      cases h
      simp
    · simp only [if_neg hx, Option.map_eq_some'] at h
      obtain ⟨j, hj, rfl⟩ := h
      have := ih j hj
      simp
      omega

/-- Joint specification of `string_to_idx`: the output has the length of the
input, every produced index is a valid action index (`< 90`), and recognized
tokens map to their exact lookup index. -/
theorem string_to_idx_spec (ss : List String) (r : Rng) :
    (string_to_idx ss r).1.length = ss.length ∧
    List.Forall₂ (fun s i =>
      (∀ j, actionIdxLookup s = some j → i = j) ∧ i < 90)
      ss (string_to_idx ss r).1 := by
  induction ss generalizing r with
  | nil => simp [string_to_idx]
  | cons s rest ih =>
    unfold string_to_idx
    cases h : actionIdxLookup s with
    | some i =>
      simp only [h]
      obtain ⟨ihlen, ihall⟩ := ih r
      refine ⟨by simp [ihlen], List.Forall₂.cons ⟨?_, ?_⟩ ihall⟩
      · intro j hj
        rw [h] at hj
        cases hj
        rfl
      · have := lookupIdx_lt_length baseActions s i h
        simpa using this
    | none =>
      simp only [h]
      obtain ⟨ihlen, ihall⟩ := ih (drawNat r).2
      refine ⟨by simp [ihlen], List.Forall₂.cons ⟨?_, ?_⟩ ihall⟩
      · intro j hj
        rw [h] at hj
        cases hj
      · have hpos : 0 < baseActions.length := by decide
        have := Nat.mod_lt (drawNat r).1 hpos
        have h90 : baseActions.length = 90 := by decide
        omega

theorem string_to_idx_length (ss : List String) (r : Rng) :
    (string_to_idx ss r).1.length = ss.length :=
  (string_to_idx_spec ss r).1

theorem string_to_idx_lt (ss : List String) (r : Rng) :
    ∀ i ∈ (string_to_idx ss r).1, i < 90 := by
  induction ss generalizing r with
  | nil => simp [string_to_idx]
  | cons s rest ih =>
    unfold string_to_idx
    cases h : actionIdxLookup s with
    | some i =>
      simp only [h]
      intro j hj
      rcases List.mem_cons.mp hj with rfl | hj
      · have := lookupIdx_lt_length baseActions s _ h
        simpa using this
      · exact ih r j hj
    | none =>
      simp only [h]
      intro j hj
      rcases List.mem_cons.mp hj with rfl | hj
      · have hpos : 0 < baseActions.length := by decide
        have := Nat.mod_lt (drawNat r).1 hpos
        have h90 : baseActions.length = 90 := by decide
        omega
      · exact ih (drawNat r).2 j hj

theorem inputLookup_isSome (i : Nat) (h : i < 90) : (inputLookup i).isSome := by
  revert h
  revert i
  decide



/-! ### The scheduler -/

theorem sample_jump_action_ne_nil (p : ℚ) (r : Rng) :
    (sample_jump_action p r).1 ≠ [] := by
  unfold sample_jump_action
  dsimp only
  split_ifs
  · have h3 : (drawNat (npRand r).2).1 % 3 < 3 := Nat.mod_lt _ (by omega)
    set k := (drawNat (npRand r).2).1 % 3 with hk
    interval_cases k <;> simp
  · simp

theorem sample_movement_action_good (pd : ℚ) (r : Rng) :
    ∃ l r', sample_movement_action pd 12 64 4 r = some (l, r') ∧ l ≠ [] := by
  unfold sample_movement_action
  dsimp only
  split_ifs
  · exact ⟨_, _, rfl, by simp⟩
  · obtain ⟨n, r', hr, hlo, -⟩ := npRandint_pos (12 / 4) (64 / 4)
      (npChoice ["l+", "dl+", "d+", "dr+", "r+"] (npRand r).2).2 (by norm_num)
    rw [hr]
    refine ⟨_, _, rfl, ?_⟩
    have hn : n ≠ 0 := by omega
    intro hnil
    have := congrArg List.length hnil
    simp at this
    omega

/-- The cancel-truncation step: for a non-empty queue it never raises and
returns `seq.take cutoff` for a cutoff in `[1, seq.length]`. -/
theorem cancelStep_spec (pc : ℚ) (seq : List Nat) (r : Rng) (hne : seq ≠ []) :
    ∃ out r', cancelStep pc seq r = some (out, r') ∧
      ∃ cutoff, 1 ≤ cutoff ∧ cutoff ≤ seq.length ∧ out = seq.take cutoff := by
  have hpos : 0 < seq.length := List.length_pos.mpr hne
  unfold cancelStep
  dsimp only
  split_ifs
  · obtain ⟨n, r', hr, hlo, hhi⟩ :=
      npRandint_pos 1 (seq.length + 1) (npRand r).2 (by omega)
    rw [hr]
    exact ⟨seq.take n, r', rfl, n, hlo, by omega, rfl⟩
  · exact ⟨seq, (npRand r).2, rfl, seq.length, by omega, le_refl _,
      (seq.take_length).symm⟩

theorem cancelStep_good (pc : ℚ) (seq : List Nat) (r : Rng) (hne : seq ≠ [])
    (hlt : ∀ i ∈ seq, i < 90) :
    ∃ out r', cancelStep pc seq r = some (out, r') ∧ out ≠ [] ∧
      ∀ i ∈ out, i < 90 := by
  obtain ⟨out, r', heq, cutoff, h1, h2, rfl⟩ := cancelStep_spec pc seq r hne
  refine ⟨_, r', heq, ?_, fun i hi => hlt i (List.take_subset _ _ hi)⟩
  have hpos : 0 < seq.length := List.length_pos.mpr hne
  have : (seq.take cutoff).length = min cutoff seq.length := by simp
  intro hnil
  rw [hnil] at this
  simp at this
  omega

/-- For a registered (valid) character and super art, at the default frame
skip every category branch of the queue refill yields a non-empty sequence of
valid action indices. -/
theorem sampleNewSequence_good (pj pb pc pcan pm : ℚ) (c : String) (art : Nat)
    (r : Rng) (hvalid : validChar c = true)
    (hart : art = 1 ∨ art = 2 ∨ art = 3) :
    ∃ seq r', sampleNewSequence pj pb pc pcan pm 4 c art r = some (seq, r') ∧
      seq ≠ [] ∧ ∀ i ∈ seq, i < 90 := by
  unfold sampleNewSequence
  dsimp only
  split_ifs
  · -- jump branch
    refine ⟨_, _, rfl, ?_, string_to_idx_lt _ _⟩
    have hlen := string_to_idx_length (sample_jump_action 0.15 (npRand r).2).1
      (sample_jump_action 0.15 (npRand r).2).2
    have hne := sample_jump_action_ne_nil 0.15 (npRand r).2
    intro hnil
    rw [hnil] at hlen
    exact hne (List.length_eq_zero.mp hlen.symm)
  · -- basic branch
    refine ⟨_, _, rfl, by simp, ?_⟩
    intro i hi
    rcases List.mem_singleton.mp hi with rfl
    have hpos : 0 < baseActions.length := by decide
    have := Nat.mod_lt (drawNat (npRand r).2).1 hpos
    have h90 : baseActions.length = 90 := by decide
    omega
  · -- combo branch
    obtain ⟨l, r2, heq, hne⟩ :=
      sample_character_special_good c art (npRand r).2 hvalid hart
    rw [heq]
    have hlen := string_to_idx_length l r2
    have hlt := string_to_idx_lt l r2
    have hne2 : (string_to_idx l r2).1 ≠ [] := by
      intro hnil
      rw [hnil] at hlen
      exact hne (List.length_eq_zero.mp hlen.symm)
    obtain ⟨out, r3, hcs, hone, hall⟩ :=
      cancelStep_good pcan (string_to_idx l r2).1 (string_to_idx l r2).2
        hne2 hlt
    exact ⟨out, r3, hcs, hone, hall⟩
  · -- movement branch
    obtain ⟨l, r2, heq, hne⟩ := sample_movement_action_good 0.15 (npRand r).2
    rw [heq]
    refine ⟨_, _, rfl, ?_, string_to_idx_lt _ _⟩
    have hlen := string_to_idx_length l r2
    intro hnil
    rw [hnil] at hlen
    exact hne (List.length_eq_zero.mp hlen.symm)

/-- Full specification of the per-agent body of `ComboInjector.sample` for a
registered agent (valid character, legal super art, queue of valid indices):
it always returns exactly one decoded token; when the queue is non-empty no
sampling happens (the random source is untouched) and the popped token is the
queue head; when the queue is empty a fresh non-empty sequence is sampled and
its head is popped. -/
theorem sampleStepAgent_spec (pj pb pc pcan pm : ℚ) (st : AgentState) (r : Rng)
    (hvalid : validChar st.character = true)
    (hart : st.superArt = 1 ∨ st.superArt = 2 ∨ st.superArt = 3)
    (hq : ∀ i ∈ st.moveSequence, i < 90) :
    ∃ tok dec st' r',
      sampleStepAgent pj pb pc pcan pm 4 st r = some ((tok, dec), st', r') ∧
      st'.character = st.character ∧ st'.superArt = st.superArt ∧
      (∀ i ∈ st'.moveSequence, i < 90) ∧
      (st.moveSequence ≠ [] →
        r' = r ∧ st.moveSequence = tok :: st'.moveSequence) ∧
      (st.moveSequence = [] →
        ∃ seq r1,
          sampleNewSequence pj pb pc pcan pm 4 st.character st.superArt r =
            some (seq, r1) ∧
          seq ≠ [] ∧ r' = r1 ∧ seq = tok :: st'.moveSequence) := by
  unfold sampleStepAgent
  cases hseq : st.moveSequence with
  | nil =>
    have hin : in_sequence st = false := by simp [in_sequence, hseq]
    rw [hin]
    obtain ⟨seq, r1, heqS, hneS, hltS⟩ :=
      sampleNewSequence_good pj pb pc pcan pm st.character st.superArt r
        hvalid hart
    obtain ⟨tok, rest, rfl⟩ : ∃ t ts, seq = t :: ts := by
      cases seq with
      | nil => exact absurd rfl hneS
      | cons t ts => exact ⟨t, ts, rfl⟩
    have htok : tok < 90 := hltS tok (List.mem_cons_self _ _)
    obtain ⟨dec, hdec⟩ :=
      Option.isSome_iff_exists.mp (inputLookup_isSome tok htok)
    simp only [Bool.false_eq_true, if_false, heqS, hdec]
    refine ⟨tok, dec, { st with moveSequence := rest }, r1, rfl, rfl, rfl,
      ?_, ?_, ?_⟩
    · exact fun i hi => hltS i (List.mem_cons_of_mem _ hi)
    · intro hcontra
      exact absurd rfl hcontra
    · intro _
      exact ⟨tok :: rest, r1, rfl, hneS, rfl, rfl⟩
  | cons a rest =>
    have hin : in_sequence st = true := by simp [in_sequence, hseq]
    rw [hin]
    have ha : a < 90 := hq a (by rw [hseq]; exact List.mem_cons_self _ _)
    obtain ⟨dec, hdec⟩ :=
      Option.isSome_iff_exists.mp (inputLookup_isSome a ha)
    simp only [if_true, hseq, hdec]
    refine ⟨a, dec, { st with moveSequence := rest }, r, rfl, rfl, rfl,
      ?_, ?_, ?_⟩
    · intro i hi
      exact hq i (by rw [hseq]; exact List.mem_cons_of_mem _ hi)
    · intro _
      exact ⟨rfl, rfl⟩
    · intro hcontra
      exact (List.cons_ne_nil _ _ hcontra).elim


/-- Validity of a registered agent entry as established by `reset` and
preserved by every scheduling step. -/
theorem sample_all_agents (pj pb pc pcan pm : ℚ) :
    ∀ (agents : List (String × AgentState)) (r : Rng),
      (∀ a ∈ agents, validChar a.2.character = true ∧
        (a.2.superArt = 1 ∨ a.2.superArt = 2 ∨ a.2.superArt = 3) ∧
        (∀ i ∈ a.2.moveSequence, i < 90)) →
      ∃ outs sts r',
        sample pj pb pc pcan pm 4 agents r = some (outs, sts, r') ∧
        outs.map Prod.fst = agents.map Prod.fst ∧
        sts.map Prod.fst = agents.map Prod.fst ∧
        (∀ a ∈ sts, validChar a.2.character = true ∧
          (a.2.superArt = 1 ∨ a.2.superArt = 2 ∨ a.2.superArt = 3) ∧
          (∀ i ∈ a.2.moveSequence, i < 90)) := by
  intro agents
  induction agents with
  | nil =>
    intro r _
    exact ⟨[], [], r, rfl, rfl, rfl, by simp⟩
  | cons a rest ih =>
    intro r h
    obtain ⟨id, st⟩ := a
    obtain ⟨h1, h2, h3⟩ := h (id, st) (List.mem_cons_self _ _)
    obtain ⟨tok, dec, st', r1, heq, hchar, hart, hinv, -, -⟩ :=
      sampleStepAgent_spec pj pb pc pcan pm st r h1 h2 h3
    obtain ⟨outs, sts, r2, heqs, ho, hs, hrest⟩ :=
      ih r1 (fun a ha => h a (List.mem_cons_of_mem _ ha))
    unfold sample
    rw [heq]
    dsimp only
    rw [heqs]
    refine ⟨(id, (tok, dec)) :: outs, (id, st') :: sts, r2, rfl,
      by simp [ho], by simp [hs], ?_⟩
    intro a ha
    rcases List.mem_cons.mp ha with rfl | ha
    · refine ⟨by rw [hchar]; exact h1, ?_, hinv⟩
      rw [hart]
      exact h2
    · exact hrest a ha

/-! ### Reset -/

theorem resetGo_spec (pre : List (String × Nat)) (p : String × Nat)
    (post : List (String × Nat)) (i : Nat)
    (hpre : ∀ q ∈ pre, EntryOk q) (hbad : ¬EntryOk p) :
    (resetGo i (pre ++ p :: post)).1 = registeredOf i pre ∧
    (resetGo i (pre ++ p :: post)).2.isSome := by
  induction pre generalizing i with
  | nil =>
    obtain ⟨c, a⟩ := p
    simp only [List.nil_append]
    unfold resetGo registeredOf
    by_cases hv : validChar c = true
    · have hart : ¬(a = 1 ∨ a = 2 ∨ a = 3) := fun h => hbad ⟨hv, h⟩
      rw [if_neg (by simp [hv]), if_pos hart]
      exact ⟨rfl, rfl⟩
    · have hv' : validChar c = false := by
        revert hv
        cases validChar c <;> simp
      rw [if_pos hv']
      exact ⟨rfl, rfl⟩
  | cons q pre ih =>
    obtain ⟨c, a⟩ := q
    obtain ⟨h1, h2⟩ := hpre (c, a) (List.mem_cons_self _ _)
    have ihr := ih (i + 1) (fun q hq => hpre q (List.mem_cons_of_mem _ hq))
    simp only [List.cons_append]
    unfold resetGo registeredOf
    rw [if_neg (by simp [h1]), if_neg (not_not_intro h2)]
    dsimp only
    exact ⟨by rw [ihr.1], ihr.2⟩

/-! ### The selector fallback -/

theorem selectLoop_fallback (art : Nat) (moves : List (String × MoveEntry)) :
    ∀ (roll acc : ℚ) (r : Rng),
      (∀ k, k < moves.length → acc + probAcc moves (k + 1) < roll) →
      ∃ t r', selectLoop 4 art roll moves acc r = some ([t], r') ∧
        t ∈ baseActions := by
  induction moves with
  | nil =>
    intro roll acc r _
    exact ⟨(npChoice baseActions r).1, (npChoice baseActions r).2, rfl,
      npChoice_fst_mem _ _ (by decide)⟩
  | cons m rest ih =>
    intro roll acc r h
    obtain ⟨name, e⟩ := m
    unfold selectLoop
    have h0 : acc + e.prob < roll := by
      have := h 0 (by simp)
      simpa [probAcc] using this
    rw [if_neg (not_le.mpr h0)]
    apply ih roll (acc + e.prob) r
    intro k hk
    have h1 := h (k + 1) (by simp; omega)
    have e1 : probAcc ((name, e) :: rest) (k + 1 + 1) =
        e.prob + probAcc rest (k + 1) := by
      simp [probAcc, List.take_succ_cons]
    rw [e1] at h1
    linarith

/-! ### The quarter-circle combine -/

theorem _combine_actions_qc_p (r : Rng) :
    ∃ a, (a = "lp" ∨ a = "mp" ∨ a = "hp") ∧
      ((_combine_actions "qc" "p" r).1 = ["d+", "dr+", "r+" ++ a] ∨
       (_combine_actions "qc" "p" r).1 = ["d+", "dl+", "l+" ++ a]) := by
  have e1 : _combine_actions "qc" "p" r =
      (((patternOf (npChoice ["rqc", "lqc"] r).1).zip
          (List.replicate
            ((patternOf (npChoice ["rqc", "lqc"] r).1).length - 1) "" ++
            [(npChoice ["lp", "mp", "hp"] (npChoice ["rqc", "lqc"] r).2).1])).map
        (fun p => p.1 ++ "+" ++ p.2),
        (npChoice ["lp", "mp", "hp"] (npChoice ["rqc", "lqc"] r).2).2) := rfl
  have hm := npChoice_fst_mem ["rqc", "lqc"] r (by decide)
  have ha := npChoice_fst_mem ["lp", "mp", "hp"]
    (npChoice ["rqc", "lqc"] r).2 (by decide)
  simp only [List.mem_cons, List.mem_singleton, List.not_mem_nil, or_false]
    at hm ha
  rw [e1]
  rcases hm with hm | hm <;> rw [hm] <;>
    rcases ha with ha | ha | ha <;> rw [ha] <;>
    [exact ⟨"lp", by decide, Or.inl (by dsimp only; decide)⟩;
     exact ⟨"mp", by decide, Or.inl (by dsimp only; decide)⟩;
     exact ⟨"hp", by decide, Or.inl (by dsimp only; decide)⟩;
     exact ⟨"lp", by decide, Or.inr (by dsimp only; decide)⟩;
     exact ⟨"mp", by decide, Or.inr (by dsimp only; decide)⟩;
     exact ⟨"hp", by decide, Or.inr (by dsimp only; decide)⟩]

/-! ### Claim theorems -/

/-- C1: after `reset`, every call to the per-agent sampling step of
`ComboInjector.sample` returns exactly one token index together with its
decoded two-field form; a fresh sequence is sampled exactly when the agent's
pending queue is empty (when it is non-empty the random source is untouched
and the head of the queue is popped), and each call removes exactly one
element from the front of the queue. -/
theorem C1_scheduler_liveness (pj pb pc pcan pm : ℚ) (st : AgentState)
    (r : Rng) (hvalid : validChar st.character = true)
    (hart : st.superArt = 1 ∨ st.superArt = 2 ∨ st.superArt = 3)
    (hq : ∀ i ∈ st.moveSequence, i < 90) :
    ∃ tok dec st' r',
      sampleStepAgent pj pb pc pcan pm 4 st r = some ((tok, dec), st', r') ∧
      st'.character = st.character ∧ st'.superArt = st.superArt ∧
      (∀ i ∈ st'.moveSequence, i < 90) ∧
      (st.moveSequence ≠ [] →
        r' = r ∧ st.moveSequence = tok :: st'.moveSequence) ∧
      (st.moveSequence = [] →
        ∃ seq r1,
          sampleNewSequence pj pb pc pcan pm 4 st.character st.superArt r =
            some (seq, r1) ∧
          seq ≠ [] ∧ r' = r1 ∧ seq = tok :: st'.moveSequence) :=
  sampleStepAgent_spec pj pb pc pcan pm st r hvalid hart hq

theorem C1_witness :
    (validChar "Ken" = true) ∧
    ((1 : Nat) = 1 ∨ (1 : Nat) = 2 ∨ (1 : Nat) = 3) ∧
    (∀ i ∈ ([5] : List Nat), i < 90) ∧
    (∃ tok dec st' r',
      sampleStepAgent 0.04 0.21 0.35 0.2 0.3 4 ⟨[5], "Ken", 1⟩ ⟨[], []⟩ =
        some ((tok, dec), st', r') ∧
      st'.character = "Ken" ∧ st'.superArt = 1 ∧
      (∀ i ∈ st'.moveSequence, i < 90) ∧
      (([5] : List Nat) ≠ [] →
        r' = ⟨[], []⟩ ∧ ([5] : List Nat) = tok :: st'.moveSequence) ∧
      (([5] : List Nat) = [] →
        ∃ seq r1,
          sampleNewSequence 0.04 0.21 0.35 0.2 0.3 4 "Ken" 1 ⟨[], []⟩ =
            some (seq, r1) ∧
          seq ≠ [] ∧ r' = r1 ∧ seq = tok :: st'.moveSequence)) :=
  ⟨by decide, by decide, by decide,
    C1_scheduler_liveness 0.04 0.21 0.35 0.2 0.3 ⟨[5], "Ken", 1⟩ ⟨[], []⟩
      (by decide) (by decide) (by decide)⟩

/-- C2: the token vocabulary has exactly 90 elements (9 directions times 10
attacks), `action_space_size` is 90, and encoding the token string associated
with any index in `[0, 90)` yields that index again. -/
theorem C2_token_round_trip :
    action_space_size = 90 ∧ baseActions.length = 90 ∧
    ∀ i, i < 90 → (baseActions.get? i).bind actionIdxLookup = some i := by
  decide

theorem C2_witness :
    37 < 90 ∧ (baseActions.get? 37).bind actionIdxLookup = some 37 :=
  ⟨by decide, C2_token_round_trip.2.2 37 (by decide)⟩

/-- C3 counterexample: for the hold bounds `min = 16`, `max = 63` and frame
skip 4 the code draws 15 held steps (from `randint(16 // 4, (63 + 1) // 4)`),
but 15 is not in the claimed half-open range `[16 / 4, 63 / 4) = [4, 15)`. -/
theorem C3_counterexample :
    (_hold_direction "d" "16" "63" "" 4 ⟨[11, 0], []⟩).map
      (fun p => p.1.length) = some 15 ∧ ¬(15 < 63 / 4) := by decide

/-- C3 (amended): the number of held steps is drawn uniformly from
`[minFrames / frameSkip, (maxFrames + 1) / frameSkip)` (for `min = 16`,
`max = 64`, `frameSkip = 4` this is `[4, 16)`, as the claim's example says),
with one release step appended exactly when the release field is non-empty. -/
theorem C3_amended_hold_range (direction minS maxS rel : String)
    (minF maxF fs : Nat) (r : Rng)
    (hmin : parseNat minS = some minF) (hmax : parseNat maxS = some maxF)
    (hrange : minF / fs < (maxF + 1) / fs)
    (hd : direction = "d" ∨ direction = "lr") :
    ∃ dirHeld numSteps relPart r',
      _hold_direction direction minS maxS rel fs r =
        some (List.replicate numSteps (dirHeld ++ "+") ++ relPart, r') ∧
      minF / fs ≤ numSteps ∧ numSteps < (maxF + 1) / fs ∧
      relPart.length = (if rel = "" then 0 else 1) :=
  _hold_direction_spec direction minS maxS rel minF maxF fs r hmin hmax
    hrange hd

theorem C3_witness :
    (parseNat "16" = some 16) ∧ (parseNat "64" = some 64) ∧
    (16 / 4 < (64 + 1) / 4) ∧ (("d" : String) = "d" ∨ ("d" : String) = "lr") ∧
    (∃ dirHeld numSteps relPart r',
      _hold_direction "d" "16" "64" "k" 4 ⟨[0, 1, 2], [0]⟩ =
        some (List.replicate numSteps (dirHeld ++ "+") ++ relPart, r') ∧
      16 / 4 ≤ numSteps ∧ numSteps < (64 + 1) / 4 ∧
      relPart.length = (if ("k" : String) = "" then 0 else 1)) :=
  ⟨by decide, by decide, by decide, Or.inl rfl,
    C3_amended_hold_range "d" "16" "64" "k" 16 64 4 ⟨[0, 1, 2], [0]⟩
      (by decide) (by decide) (by decide) (Or.inl rfl)⟩

/-- C4 counterexample: the valid descriptor `rep_p_0_8_` (a `rep` segment with
`minRepeats = 0`) compiles to the empty token list when the drawn repeat count
is 0, so the compiler output is not always non-empty. -/
theorem C4_counterexample :
    (_decode_action_string 4 "rep_p_0_8_" ⟨[0, 0], []⟩).map (fun p => p.1) =
      some [] := by decide

/-- C4 (amended): a `rep` segment whose drawn repeat count is 0 contributes a
zero-length sequence (possible whenever `minRepeats = 0`), but every
descriptor string actually present in the move data compiles, for every
random draw, to a non-empty token list at the default frame skip. -/
theorem C4_amended_nonempty :
    ∀ s ∈ repoDescriptorStrings, ∀ r : Rng,
      ∃ l r', _decode_action_string 4 s r = some (l, r') ∧ l ≠ [] :=
  fun s hs r => repoGood s hs r

theorem C4_witness :
    ("comb_qc_p" ∈ repoDescriptorStrings) ∧
    (∃ l r', _decode_action_string 4 "comb_qc_p" ⟨[0, 1], []⟩ =
      some (l, r') ∧ l ≠ []) :=
  ⟨by decide, C4_amended_nonempty "comb_qc_p" (by decide) ⟨[0, 1], []⟩⟩

/-- C5: if the accumulated move weights never reach the uniform draw, the
selector falls through the loop and returns a single-token sequence drawn
from the entire 90-token vocabulary instead of raising. -/
theorem C5_selector_fallback (c : String)
    (cm : String × List (String × MoveEntry)) (art : Nat) (r : Rng)
    (hfind : charactersSfiii.find? (fun x => x.1 == c) = some cm)
    (hroll : ∀ k, k < cm.2.length → probAcc cm.2 (k + 1) < (npRand r).1) :
    ∃ t r', sample_character_special 4 c art r = some ([t], r') ∧
      t ∈ baseActions := by
  unfold sample_character_special
  rw [hfind]
  exact selectLoop_fallback art cm.2 (npRand r).1 0 (npRand r).2
    (fun k hk => by simpa using hroll k hk)

section
attribute [local semireducible] Rat.add Rat.ofScientific

theorem C5_witness :
    (charactersSfiii.find? (fun x => x.1 == "Alex") =
      some charactersSfiii.headI) ∧
    (∀ k, k < charactersSfiii.headI.2.length →
      probAcc charactersSfiii.headI.2 (k + 1) < (npRand ⟨[5], [2]⟩).1) ∧
    (∃ t r', sample_character_special 4 "Alex" 1 ⟨[5], [2]⟩ =
      some ([t], r') ∧ t ∈ baseActions) :=
  ⟨by decide, by decide,
    C5_selector_fallback "Alex" charactersSfiii.headI 1 ⟨[5], [2]⟩
      (by decide) (by decide)⟩

end

/-- C6: compiling `comb_qc_p` always yields exactly three tokens: the first
two carry no attack, the last carries one of the three punch strengths, and
the direction sequence is either (down, down-right, right) or its mirror
(down, down-left, left). -/
theorem C6_comb_qc_p_shape (r : Rng) :
    ∃ a, (a = "lp" ∨ a = "mp" ∨ a = "hp") ∧
      ((_decode_action_string 4 "comb_qc_p" r).map (fun p => p.1) =
          some ["d+", "dr+", "r+" ++ a] ∨
       (_decode_action_string 4 "comb_qc_p" r).map (fun p => p.1) =
          some ["d+", "dl+", "l+" ++ a]) := by
  obtain ⟨a, ha, hcase⟩ := _combine_actions_qc_p r
  have e : _decode_action_string 4 "comb_qc_p" r =
      some ((_combine_actions "qc" "p" r).1 ++ [],
        (_combine_actions "qc" "p" r).2) := rfl
  refine ⟨a, ha, ?_⟩
  rcases hcase with h | h
  · left
    rw [e]
    simp [h]
  · right
    rw [e]
    simp [h]

/-- C7: the repeat count is drawn from the inclusive range
`[minRepeats, maxRepeats]`, the attack class is expanded once and the same
button is reused for every repetition, and each attack step is followed by
exactly one no-direction/no-attack filler step exactly when the tap flag is
non-empty. -/
theorem C7_repeat_attack (atkS minS maxS tap : String) (minR maxR : Nat)
    (r : Rng)
    (hmin : parseNat minS = some minR) (hmax : parseNat maxS = some maxR)
    (hle : minR ≤ maxR) :
    ∃ atk reps r',
      _repeat_attack atkS minS maxS tap r =
        some ((List.replicate reps
          (("+" ++ atk) :: (if tap = "" then [] else ["+"]))).flatten, r') ∧
      minR ≤ reps ∧ reps ≤ maxR ∧
      (atkS = "p" → atk ∈ ["lp", "mp", "hp"]) ∧
      (atkS = "k" → atk ∈ ["lk", "mk", "hk"]) ∧
      (atkS ≠ "p" → atkS ≠ "k" → atk = atkS) := by
  obtain ⟨reps, r', heq, h1, h2⟩ :=
    _repeat_attack_spec atkS minS maxS tap minR maxR r hmin hmax hle
  refine ⟨(resolveAttack atkS r).1, reps, r', heq, h1, h2, ?_, ?_, ?_⟩
  · intro hp
    subst hp
    exact npChoice_fst_mem ["lp", "mp", "hp"] r (by decide)
  · intro hk
    subst hk
    exact npChoice_fst_mem ["lk", "mk", "hk"] r (by decide)
  · intro hp hk
    unfold resolveAttack
    rw [if_neg hp, if_neg hk]

theorem C7_witness :
    (parseNat "3" = some 3) ∧ (parseNat "12" = some 12) ∧ (3 ≤ 12) ∧
    (∃ atk reps r',
      _repeat_attack "p" "3" "12" "t" ⟨[0, 2], []⟩ =
        some ((List.replicate reps
          (("+" ++ atk) :: (if ("t" : String) = "" then [] else ["+"]))).flatten,
          r') ∧
      3 ≤ reps ∧ reps ≤ 12 ∧
      (("p" : String) = "p" → atk ∈ ["lp", "mp", "hp"]) ∧
      (("p" : String) = "k" → atk ∈ ["lk", "mk", "hk"]) ∧
      (("p" : String) ≠ "p" → ("p" : String) ≠ "k" → atk = "p")) :=
  ⟨by decide, by decide, by decide,
    C7_repeat_attack "p" "3" "12" "t" 3 12 ⟨[0, 2], []⟩
      (by decide) (by decide) (by decide)⟩

/-- C8: in the combo branch, for any non-empty compiled sequence and any
cancel draw the truncated sequence is a prefix `seq.take cutoff` with
`cutoff` in `[1, length]`; truncation never yields an empty sequence. -/
theorem C8_cancel_truncation (pc : ℚ) (seq : List Nat) (r : Rng)
    (h : 1 ≤ seq.length) :
    ∃ out r', cancelStep pc seq r = some (out, r') ∧
      ∃ cutoff, 1 ≤ cutoff ∧ cutoff ≤ seq.length ∧ out = seq.take cutoff ∧
        1 ≤ out.length ∧ out.length ≤ seq.length := by
  have hne : seq ≠ [] := by
    intro hnil
    rw [hnil] at h
    simp at h
  obtain ⟨out, r', heq, cutoff, h1, h2, rfl⟩ := cancelStep_spec pc seq r hne
  refine ⟨_, r', heq, cutoff, h1, h2, rfl, ?_, ?_⟩
  · simp only [List.length_take]
    omega
  · simp only [List.length_take]
    omega

theorem C8_witness :
    1 ≤ ([4, 5, 6] : List Nat).length ∧
    (∃ out r', cancelStep 1 [4, 5, 6] ⟨[1], [0]⟩ = some (out, r') ∧
      ∃ cutoff, 1 ≤ cutoff ∧ cutoff ≤ ([4, 5, 6] : List Nat).length ∧
        out = ([4, 5, 6] : List Nat).take cutoff ∧
        1 ≤ out.length ∧ out.length ≤ ([4, 5, 6] : List Nat).length) :=
  ⟨by decide, C8_cancel_truncation 1 [4, 5, 6] ⟨[1], [0]⟩ (by decide)⟩

/-- C9: `string_to_idx` never raises: the output always has the length of the
input, every recognized token maps to its exact lookup index, and every
produced index (including the random substitutes for unrecognized tokens) is
a valid index in `[0, 90)`. -/
theorem C9_encoding_error_policy (ss : List String) (r : Rng) :
    (string_to_idx ss r).1.length = ss.length ∧
    List.Forall₂ (fun s i =>
      (∀ j, actionIdxLookup s = some j → i = j) ∧ i < 90)
      ss (string_to_idx ss r).1 :=
  string_to_idx_spec ss r

/-- C10: `reset` discards all previous agent state (its result depends only on
its arguments) and registers the zipped entries in order; at the first entry
with an unknown character or a super art outside 1..3 it raises, leaving
exactly the entries preceding the failing one registered. -/
theorem C10_reset_partial (chars : List String) (arts : List Nat)
    (pre : List (String × Nat)) (p : String × Nat) (post : List (String × Nat))
    (hzip : chars.zip arts = pre ++ p :: post)
    (hpre : ∀ q ∈ pre, EntryOk q) (hbad : ¬EntryOk p) :
    (reset chars arts).1 = registeredOf 0 pre ∧
    (reset chars arts).2.isSome := by
  unfold reset
  rw [hzip]
  exact resetGo_spec pre p post 0 hpre hbad

theorem C10_witness :
    ((["Alex", "Bison"].zip ([1, 2] : List Nat)) =
      [("Alex", 1)] ++ ("Bison", 2) :: []) ∧
    (∀ q ∈ [(("Alex" : String), (1 : Nat))], EntryOk q) ∧
    ¬EntryOk ("Bison", 2) ∧
    ((reset ["Alex", "Bison"] [1, 2]).1 = registeredOf 0 [("Alex", 1)] ∧
     (reset ["Alex", "Bison"] [1, 2]).2.isSome) :=
  ⟨by decide, by decide, by decide,
    C10_reset_partial ["Alex", "Bison"] [1, 2] [("Alex", 1)] ("Bison", 2) []
      (by decide) (by decide) (by decide)⟩
